import Mathlib

set_option maxHeartbeats 1000000
set_option maxRecDepth 4000

/-!
Shallow embedding of the JetKVM cloud API release-resolution core
(src/helpers.ts and src/releases.ts), together with executable models of the
external collaborators those files call: the node crypto hashes (MD5 and
SHA-256), the npm semver library (version parsing, precedence, ranges,
maxSatisfying), the S3/R2 object store, and the prisma release table.
Asynchronous functions are modelled as pure functions with explicit state
passing; a thrown error is `Except.error`.
-/

/-- Error taxonomy of src/errors.ts as used at the call sites, plus a
constructor for raw upstream S3 client errors (which are not instances of
the repository's error classes). -/
inductive Err where
  | badRequest (msg : String)
  | notFound (msg : String)
  | internal (msg : String)
  | s3 (msg : String)
  deriving DecidableEq, Repr

/-- The two artifact kinds; the string union type of releases.ts. -/
inductive RelKind where
  | app
  | system
  deriving DecidableEq, Repr

/-- The string value of an artifact kind. -/
def RelKind.str : RelKind → String
  | .app => "app"
  | .system => "system"

/- ### Character-list utilities

String processing is done over `List Char` with structural recursion so that
every definition reduces in the kernel. -/

/-- Whitespace test used by the JS trim operations (ASCII fragment). -/
def isWsChar (c : Char) : Bool :=
  c == ' ' || c == '\t' || c == '\n' || c == '\r'

/-- Drop trailing whitespace, as JS `String.prototype.trimEnd`. -/
def trimEndCL (l : List Char) : List Char :=
  (l.reverse.dropWhile isWsChar).reverse

/-- Drop leading whitespace, as JS `String.prototype.trimStart`. -/
def trimStartCL (l : List Char) : List Char :=
  l.dropWhile isWsChar

/-- Both-ends trim, as JS `String.prototype.trim`. -/
def trimCL (l : List Char) : List Char :=
  trimStartCL (trimEndCL l)

/-- JS `s.trimEnd()` on a Lean string. -/
def jsTrimEnd (s : String) : String :=
  ⟨trimEndCL s.data⟩

/-- JS `s.trim()` on a Lean string. -/
def jsTrim (s : String) : String :=
  ⟨trimCL s.data⟩

/-- Split a character list at every occurrence of the separator character,
like JS `String.prototype.split` with a one-character separator. -/
def splitOnCharCL (sep : Char) (l : List Char) : List (List Char) :=
  l.foldr
    (fun c acc =>
      if c == sep then
        [] :: acc
      else
        match acc with
        | [] => [[c]]
        | a :: rest => (c :: a) :: rest)
    [[]]

/-- JS `s.split(sep)` for a one-character separator string. -/
def jsSplit (s : String) (sep : Char) : List String :=
  (splitOnCharCL sep s.data).map (fun l => ⟨l⟩)

/-- ASCII decimal digit test. -/
def isDigitB (c : Char) : Bool :=
  48 ≤ c.toNat && c.toNat ≤ 57

/-- Characters allowed in semver prerelease/build identifiers. -/
def isIdentChar (c : Char) : Bool :=
  isDigitB c || (65 ≤ c.toNat && c.toNat ≤ 90) || (97 ≤ c.toNat && c.toNat ≤ 122) || c.toNat == 45

/-- Numeric value of a list of decimal digits. -/
def digitsToNat (l : List Char) : Nat :=
  l.foldl (fun a c => a * 10 + (c.toNat - 48)) 0

/- ### Hex encoding / decoding -/

/-- Lowercase hex digit for a value below 16. -/
def hexChar (n : Nat) : Char :=
  "0123456789abcdef".data.getD n '0'

/-- Two lowercase hex digits of a byte. -/
def byteHex (b : Nat) : String :=
  ⟨[hexChar (b / 16), hexChar (b % 16)]⟩

/-- Value of one hex digit (either case); 0 for anything else. -/
def hexVal (c : Char) : Nat :=
  let n := c.toNat
  if 48 ≤ n && n ≤ 57 then n - 48
  else if 97 ≤ n && n ≤ 102 then n - 87
  else if 65 ≤ n && n ≤ 70 then n - 55
  else 0

/-- JS `parseInt(s, 16)` restricted to the all-hex-digit strings it is
applied to in this codebase (the prefix of a hex digest). -/
def parseHexNat (s : String) : Nat :=
  s.data.foldl (fun a c => a * 16 + hexVal c) 0

/-- UTF-8 encoding of one character, as a list of byte values. -/
def charUtf8 (c : Char) : List Nat :=
  let n := c.toNat
  if n < 128 then [n]
  else if n < 2048 then [192 + n / 64, 128 + n % 64]
  else if n < 65536 then [224 + n / 4096, 128 + n / 64 % 64, 128 + n % 64]
  else [240 + n / 262144, 128 + n / 4096 % 64, 128 + n / 64 % 64, 128 + n % 64]

/-- UTF-8 bytes of a string (what node `Buffer.from` / hashing sees). -/
def strBytes (s : String) : List Nat :=
  s.data.foldr (fun c acc => charUtf8 c ++ acc) []

/- ### MD5 (model of node crypto createHash("md5"))

Standard RFC 1321 MD5 over 32-bit words represented as `Nat` reduced
modulo 2^32. -/

/-- 32-bit left rotation (argument assumed below 2^32). -/
def rotl32 (x s : Nat) : Nat :=
  ((x <<< s) % 4294967296) ||| (x >>> (32 - s))

/-- 32-bit right rotation (argument assumed below 2^32). -/
def rotr32 (x s : Nat) : Nat :=
  (x >>> s) ||| ((x <<< (32 - s)) % 4294967296)

/-- The MD5 sine-derived round constants. -/
def md5K : List Nat :=
  [0xd76aa478, 0xe8c7b756, 0x242070db, 0xc1bdceee,
   0xf57c0faf, 0x4787c62a, 0xa8304613, 0xfd469501,
   0x698098d8, 0x8b44f7af, 0xffff5bb1, 0x895cd7be,
   0x6b901122, 0xfd987193, 0xa679438e, 0x49b40821,
   0xf61e2562, 0xc040b340, 0x265e5a51, 0xe9b6c7aa,
   0xd62f105d, 0x02441453, 0xd8a1e681, 0xe7d3fbc8,
   0x21e1cde6, 0xc33707d6, 0xf4d50d87, 0x455a14ed,
   0xa9e3e905, 0xfcefa3f8, 0x676f02d9, 0x8d2a4c8a,
   0xfffa3942, 0x8771f681, 0x6d9d6122, 0xfde5380c,
   0xa4beea44, 0x4bdecfa9, 0xf6bb4b60, 0xbebfbc70,
   0x289b7ec6, 0xeaa127fa, 0xd4ef3085, 0x04881d05,
   0xd9d4d039, 0xe6db99e5, 0x1fa27cf8, 0xc4ac5665,
   0xf4292244, 0x432aff97, 0xab9423a7, 0xfc93a039,
   0x655b59c3, 0x8f0ccc92, 0xffeff47d, 0x85845dd1,
   0x6fa87e4f, 0xfe2ce6e0, 0xa3014314, 0x4e0811a1,
   0xf7537e82, 0xbd3af235, 0x2ad7d2bb, 0xeb86d391]

/-- The MD5 per-round left-rotation amounts. -/
def md5S : List Nat :=
  [7, 12, 17, 22, 7, 12, 17, 22, 7, 12, 17, 22, 7, 12, 17, 22,
   5, 9, 14, 20, 5, 9, 14, 20, 5, 9, 14, 20, 5, 9, 14, 20,
   4, 11, 16, 23, 4, 11, 16, 23, 4, 11, 16, 23, 4, 11, 16, 23,
   6, 10, 15, 21, 6, 10, 15, 21, 6, 10, 15, 21, 6, 10, 15, 21]

/-- One MD5 round on the state (a, b, c, d). -/
def md5Step (M : List Nat) (st : Nat × Nat × Nat × Nat) (i : Nat) : Nat × Nat × Nat × Nat :=
  let (a, b, c, d) := st
  let fg : Nat × Nat :=
    if i < 16 then ((b &&& c) ||| ((4294967295 ^^^ b) &&& d), i)
    else if i < 32 then ((d &&& b) ||| ((4294967295 ^^^ d) &&& c), (5 * i + 1) % 16)
    else if i < 48 then (b ^^^ c ^^^ d, (3 * i + 5) % 16)
    else (c ^^^ (b ||| (4294967295 ^^^ d)), (7 * i) % 16)
  let t := (a + fg.1 + md5K.getD i 0 + M.getD fg.2 0) % 4294967296
  (d, (b + rotl32 t (md5S.getD i 0)) % 4294967296, b, c)

/-- The sixteen little-endian 32-bit words of a 64-byte chunk. -/
def leWords (chunk : List Nat) : List Nat :=
  (List.range 16).map (fun j =>
    chunk.getD (4 * j) 0 + chunk.getD (4 * j + 1) 0 * 256 +
    chunk.getD (4 * j + 2) 0 * 65536 + chunk.getD (4 * j + 3) 0 * 16777216)

/-- Process one 64-byte chunk of the MD5 input. -/
def md5Chunk (st : Nat × Nat × Nat × Nat) (chunk : List Nat) : Nat × Nat × Nat × Nat :=
  let M := leWords chunk
  let r := (List.range 64).foldl (md5Step M) st
  ((r.1 + st.1) % 4294967296, (r.2.1 + st.2.1) % 4294967296,
   (r.2.2.1 + st.2.2.1) % 4294967296, (r.2.2.2 + st.2.2.2) % 4294967296)

/-- Little-endian 64-bit byte encoding of a length-in-bits value. -/
def leLenBytes (n : Nat) : List Nat :=
  (List.range 8).map (fun i => (n >>> (8 * i)) % 256)

/-- MD5 padding: 0x80, zeros to 56 mod 64, then the bit length (LE). -/
def md5Pad (msg : List Nat) : List Nat :=
  let L := msg.length
  let r := (L + 1) % 64
  let k := if r ≤ 56 then 56 - r else 120 - r
  msg ++ [128] ++ List.replicate k 0 ++ leLenBytes ((L * 8) % 18446744073709551616)

/-- Little-endian hex rendering of one 32-bit word. -/
def wordHexLE (w : Nat) : String :=
  byteHex (w % 256) ++ byteHex ((w >>> 8) % 256) ++
  byteHex ((w >>> 16) % 256) ++ byteHex ((w >>> 24) % 256)

/-- Big-endian hex rendering of one 32-bit word. -/
def wordHexBE (w : Nat) : String :=
  byteHex ((w >>> 24) % 256) ++ byteHex ((w >>> 16) % 256) ++
  byteHex ((w >>> 8) % 256) ++ byteHex (w % 256)

/-- Lowercase hex MD5 digest of a byte sequence. -/
def md5Hex (msg : List Nat) : String :=
  let padded := md5Pad msg
  let n := padded.length / 64
  let r := (List.range n).foldl
    (fun st i => md5Chunk st ((padded.drop (64 * i)).take 64))
    (0x67452301, 0xefcdab89, 0x98badcfe, 0x10325476)
  wordHexLE r.1 ++ wordHexLE r.2.1 ++ wordHexLE r.2.2.1 ++ wordHexLE r.2.2.2

/- ### SHA-256 (model of node crypto createHash("sha256")) -/

/-- The SHA-256 round constants (fractional parts of cube roots of primes). -/
def sha256K : List Nat :=
  [1116352408, 1899447441, 3049323471, 3921009573,
   961987163, 1508970993, 2453635748, 2870763221,
   3624381080, 310598401, 607225278, 1426881987,
   1925078388, 2162078206, 2614888103, 3248222580,
   3835390401, 4022224774, 264347078, 604807628,
   770255983, 1249150122, 1555081692, 1996064986,
   2554220882, 2821834349, 2952996808, 3210313671,
   3336571891, 3584528711, 113926993, 338241895,
   666307205, 773529912, 1294757372, 1396182291,
   1695183700, 1986661051, 2177026350, 2456956037,
   2730485921, 2820302411, 3259730800, 3345764771,
   3516065817, 3600352804, 4094571909, 275423344,
   430227734, 506948616, 659060556, 883997877,
   958139571, 1322822218, 1537002063, 1747873779,
   1955562222, 2024104815, 2227730452, 2361852424,
   2428436474, 2756734187, 3204031479, 3329325298]

/-- The sixteen big-endian 32-bit words of a 64-byte chunk. -/
def beWords (chunk : List Nat) : List Nat :=
  (List.range 16).map (fun j =>
    chunk.getD (4 * j) 0 * 16777216 + chunk.getD (4 * j + 1) 0 * 65536 +
    chunk.getD (4 * j + 2) 0 * 256 + chunk.getD (4 * j + 3) 0)

/-- SHA-256 small sigma 0. -/
def ssig0 (x : Nat) : Nat :=
  rotr32 x 7 ^^^ rotr32 x 18 ^^^ (x >>> 3)

/-- SHA-256 small sigma 1. -/
def ssig1 (x : Nat) : Nat :=
  rotr32 x 17 ^^^ rotr32 x 19 ^^^ (x >>> 10)

/-- The 64-word SHA-256 message schedule of one chunk. -/
def shaSchedule (w16 : List Nat) : List Nat :=
  (List.range 48).foldl
    (fun w i =>
      w ++ [(ssig1 (w.getD (i + 14) 0) + w.getD (i + 9) 0 +
             ssig0 (w.getD (i + 1) 0) + w.getD i 0) % 4294967296])
    w16

/-- One SHA-256 round on the eight-word state. -/
def shaStep (W : List Nat) (st : List Nat) (i : Nat) : List Nat :=
  match st with
  | [a, b, c, d, e, f, g, h] =>
    let S1 := rotr32 e 6 ^^^ rotr32 e 11 ^^^ rotr32 e 25
    let ch := (e &&& f) ^^^ ((4294967295 ^^^ e) &&& g)
    let t1 := (h + S1 + ch + sha256K.getD i 0 + W.getD i 0) % 4294967296
    let S0 := rotr32 a 2 ^^^ rotr32 a 13 ^^^ rotr32 a 22
    let mj := (a &&& b) ^^^ (a &&& c) ^^^ (b &&& c)
    let t2 := (S0 + mj) % 4294967296
    [(t1 + t2) % 4294967296, a, b, c, (d + t1) % 4294967296, e, f, g]
  | s => s

/-- Process one 64-byte chunk of the SHA-256 input. -/
def shaChunk (st : List Nat) (chunk : List Nat) : List Nat :=
  let W := shaSchedule (beWords chunk)
  let r := (List.range 64).foldl (shaStep W) st
  (List.range 8).map (fun i => (st.getD i 0 + r.getD i 0) % 4294967296)

/-- Big-endian 64-bit byte encoding of a length-in-bits value. -/
def beLenBytes (n : Nat) : List Nat :=
  (List.range 8).map (fun i => (n >>> (8 * (7 - i))) % 256)

/-- SHA-256 padding: 0x80, zeros to 56 mod 64, then the bit length (BE). -/
def shaPad (msg : List Nat) : List Nat :=
  let L := msg.length
  let r := (L + 1) % 64
  let k := if r ≤ 56 then 56 - r else 120 - r
  msg ++ [128] ++ List.replicate k 0 ++ beLenBytes ((L * 8) % 18446744073709551616)

/-- Lowercase hex SHA-256 digest of a byte sequence. -/
def sha256Hex (msg : List Nat) : String :=
  let padded := shaPad msg
  let n := padded.length / 64
  let r := (List.range n).foldl
    (fun st i => shaChunk st ((padded.drop (64 * i)).take 64))
    [1779033703, 3144134277, 1013904242, 2773480762,
     1359893119, 2600822924, 528734635, 1541459225]
  String.join (r.map wordHexBE)

/- ### Semver model

Model of the npm semver library as used by the source: `valid`, version
precedence (`compare`), range parsing (`validRange` / `Range`), `satisfies`
with the `includePrerelease` option, and `maxSatisfying`.  The range grammar
covers the subset exercised by this repository: `*`/`x` wildcards, bare full
and partial versions, explicit `<,<=,>,>=,=` comparators on full versions,
caret and tilde ranges, whitespace conjunction and `||` disjunction
(hyphen ranges and x-partials under explicit operators are not modelled). -/

/-- A semver prerelease identifier: numeric or alphanumeric. -/
inductive PreId where
  | num (n : Nat)
  | str (s : String)
  deriving DecidableEq, Repr

/-- A parsed semver version. -/
structure SemverV where
  major : Nat
  minor : Nat
  patch : Nat
  prerelease : List PreId
  build : List String
  deriving DecidableEq, Repr

/-- Split a character list at every character matching a predicate. -/
def splitPredCL (p : Char → Bool) (l : List Char) : List (List Char) :=
  l.foldr
    (fun c acc =>
      if p c then
        [] :: acc
      else
        match acc with
        | [] => [[c]]
        | a :: rest => (c :: a) :: rest)
    [[]]

/-- Parse a numeric identifier (digits, no leading zero except "0"). -/
def parseNumIdCL (l : List Char) : Option Nat :=
  if l.isEmpty then none
  else if !(l.all isDigitB) then none
  else
    match l with
    | '0' :: _ :: _ => none
    | _ => some (digitsToNat l)

/-- Parse one prerelease identifier. -/
def parsePreIdCL (l : List Char) : Option PreId :=
  if l.isEmpty then none
  else if !(l.all isIdentChar) then none
  else if l.all isDigitB then
    match l with
    | '0' :: _ :: _ => none
    | _ => some (.num (digitsToNat l))
  else some (.str ⟨l⟩)

/-- Parse one build identifier. -/
def parseBuildIdCL (l : List Char) : Option String :=
  if l.isEmpty then none
  else if l.all isIdentChar then some ⟨l⟩ else none

/-- Parse the `major.minor.patch[-prerelease]` core of a version. -/
def Semver.parseCore (core : List Char) (build : List String) : Option SemverV :=
  match splitOnCharCL '-' core with
  | [] => none
  | nums :: preParts =>
    let pre : Option (List PreId) :=
      if preParts.isEmpty then some []
      else (splitOnCharCL '.' (List.intercalate ['-'] preParts)).mapM parsePreIdCL
    match splitOnCharCL '.' nums with
    | [ma, mi, pa] =>
      match parseNumIdCL ma, parseNumIdCL mi, parseNumIdCL pa, pre with
      | some M, some m, some p, some ids => some ⟨M, m, p, ids, build⟩
      | _, _, _, _ => none
    | _ => none

/-- Model of `semver.parse` / the validity test behind `semver.valid`:
trims, strips an optional leading `v`, then requires a full
`major.minor.patch` with optional prerelease and build parts. -/
def Semver.parse (s : String) : Option SemverV :=
  let l := trimCL s.data
  let l :=
    match l with
    | 'v' :: rest => rest
    | _ => l
  match splitOnCharCL '+' l with
  | [core] => Semver.parseCore core []
  | [core, bld] =>
    match (splitOnCharCL '.' bld).mapM parseBuildIdCL with
    | some bs => Semver.parseCore core bs
    | none => none
  | _ => none

/-- Model of `semver.valid` as a truthiness test. -/
def Semver.validB (s : String) : Bool :=
  (Semver.parse s).isSome

/-- Three-way comparison on naturals. -/
def natCmp (a b : Nat) : Ordering :=
  if a < b then .lt else if a = b then .eq else .gt

/-- Three-way comparison on characters by code point (JS string order). -/
def charCmp (a b : Char) : Ordering :=
  natCmp a.toNat b.toNat

/-- Lexicographic three-way comparison of character lists. -/
def strCmpCL : List Char → List Char → Ordering
  | [], [] => .eq
  | [], _ :: _ => .lt
  | _ :: _, [] => .gt
  | a :: as, b :: bs => (charCmp a b).then (strCmpCL as bs)

/-- Semver precedence of prerelease identifiers: numeric identifiers sort
below alphanumeric ones; numerics numerically, alphanumerics by code point. -/
def PreId.cmp : PreId → PreId → Ordering
  | .num a, .num b => natCmp a b
  | .num _, .str _ => .lt
  | .str _, .num _ => .gt
  | .str a, .str b => strCmpCL a.data b.data

/-- Lexicographic comparison of prerelease identifier lists; a strict prefix
sorts first. -/
def cmpIds : List PreId → List PreId → Ordering
  | [], [] => .eq
  | [], _ :: _ => .lt
  | _ :: _, [] => .gt
  | a :: as, b :: bs => (PreId.cmp a b).then (cmpIds as bs)

/-- Prerelease-list precedence of `compareMain`/`comparePre`: a version
without prerelease identifiers outranks one with them; otherwise the
identifier lists are compared. -/
def cmpPre : List PreId → List PreId → Ordering
  | [], [] => .eq
  | [], _ :: _ => .gt
  | _ :: _, [] => .lt
  | p :: ps, q :: qs => cmpIds (p :: ps) (q :: qs)

/-- Model of `semver.compare`: numeric triple, then "no prerelease beats any
prerelease", then identifier-list precedence; build metadata is ignored. -/
def SemverV.cmp (a b : SemverV) : Ordering :=
  (natCmp a.major b.major).then
    ((natCmp a.minor b.minor).then
      ((natCmp a.patch b.patch).then (cmpPre a.prerelease b.prerelease)))

/-- Comparator operators of a semver range. -/
inductive CompOp where
  | eq
  | lt
  | le
  | gt
  | ge
  deriving DecidableEq, Repr

/-- One primitive comparator of a semver range. -/
structure Comparator where
  op : CompOp
  ver : SemverV
  deriving DecidableEq, Repr

/-- A parsed partial (x-range) version appearing in a range token. -/
structure XRange where
  xmaj : Option Nat
  xmin : Option Nat
  xpat : Option Nat
  xpre : List PreId
  deriving DecidableEq, Repr

/-- Parse one component of a partial version (`x`, `X`, `*` or numeric). -/
def parseXPart (l : List Char) : Option (Option Nat) :=
  if l == ['x'] || l == ['X'] || l == ['*'] then some none
  else
    match parseNumIdCL l with
    | some n => some (some n)
    | none => none

/-- Parse a partial version token; a prerelease part is accepted only on a
full numeric triple. -/
def parseXRange (t : List Char) : Option XRange :=
  let t :=
    match t with
    | 'v' :: rest => rest
    | _ => t
  let core :=
    match splitOnCharCL '+' t with
    | [core] => some core
    | [core, bld] => if ((splitOnCharCL '.' bld).mapM parseBuildIdCL).isSome then some core else none
    | _ => none
  match core with
  | none => none
  | some core =>
    match splitOnCharCL '-' core with
    | [] => none
    | nums :: preParts =>
      let pre : Option (List PreId) :=
        if preParts.isEmpty then some []
        else (splitOnCharCL '.' (List.intercalate ['-'] preParts)).mapM parsePreIdCL
      match pre with
      | none => none
      | some ids =>
        match (splitOnCharCL '.' nums).mapM parseXPart with
        | some [M] => if ids.isEmpty then some ⟨M, none, none, []⟩ else none
        | some [M, m] => if ids.isEmpty then some ⟨M, m, none, []⟩ else none
        | some [M, m, p] =>
          if ids.isEmpty then some ⟨M, m, p, []⟩
          else
            match M, m, p with
            | some M, some m, some p => some ⟨some M, some m, some p, ids⟩
            | _, _, _ => none
        | _ => none

/-- Build a version for a desugared comparator bound. -/
def xTriple (M m p : Nat) (pre : List PreId) : SemverV :=
  ⟨M, m, p, pre, []⟩

/-- Desugar a bare (operator-less) partial version token. -/
def desugarPlain (x : XRange) : List Comparator :=
  match x.xmaj with
  | none => []
  | some M =>
    match x.xmin with
    | none => [⟨.ge, xTriple M 0 0 []⟩, ⟨.lt, xTriple (M + 1) 0 0 [.num 0]⟩]
    | some m =>
      match x.xpat with
      | none => [⟨.ge, xTriple M m 0 []⟩, ⟨.lt, xTriple M (m + 1) 0 [.num 0]⟩]
      | some p => [⟨.eq, xTriple M m p x.xpre⟩]

/-- Desugar a tilde range token. -/
def desugarTilde (x : XRange) : List Comparator :=
  match x.xmaj with
  | none => []
  | some M =>
    match x.xmin with
    | none => [⟨.ge, xTriple M 0 0 []⟩, ⟨.lt, xTriple (M + 1) 0 0 [.num 0]⟩]
    | some m =>
      match x.xpat with
      | none => [⟨.ge, xTriple M m 0 []⟩, ⟨.lt, xTriple M (m + 1) 0 [.num 0]⟩]
      | some p => [⟨.ge, xTriple M m p x.xpre⟩, ⟨.lt, xTriple M (m + 1) 0 [.num 0]⟩]

/-- Desugar a caret range token. -/
def desugarCaret (x : XRange) : List Comparator :=
  match x.xmaj with
  | none => []
  | some M =>
    match x.xmin with
    | none => [⟨.ge, xTriple M 0 0 []⟩, ⟨.lt, xTriple (M + 1) 0 0 [.num 0]⟩]
    | some m =>
      match x.xpat with
      | none =>
        if M > 0 then [⟨.ge, xTriple M m 0 []⟩, ⟨.lt, xTriple (M + 1) 0 0 [.num 0]⟩]
        else [⟨.ge, xTriple 0 m 0 []⟩, ⟨.lt, xTriple 0 (m + 1) 0 [.num 0]⟩]
      | some p =>
        if M > 0 then [⟨.ge, xTriple M m p x.xpre⟩, ⟨.lt, xTriple (M + 1) 0 0 [.num 0]⟩]
        else if m > 0 then [⟨.ge, xTriple 0 m p x.xpre⟩, ⟨.lt, xTriple 0 (m + 1) 0 [.num 0]⟩]
        else [⟨.ge, xTriple 0 0 p x.xpre⟩, ⟨.lt, xTriple 0 0 (p + 1) [.num 0]⟩]

/-- An explicit comparator operator requires a full version in this model. -/
def desugarOp (op : CompOp) (x : XRange) : Option (List Comparator) :=
  match x.xmaj, x.xmin, x.xpat with
  | some M, some m, some p => some [⟨op, xTriple M m p x.xpre⟩]
  | _, _, _ => none

/-- Parse one whitespace-delimited range token into comparators. -/
def parseCompToken (t : List Char) : Option (List Comparator) :=
  match t with
  | [] => some []
  | '>' :: '=' :: rest => (parseXRange rest).bind (desugarOp .ge)
  | '<' :: '=' :: rest => (parseXRange rest).bind (desugarOp .le)
  | '>' :: rest => (parseXRange rest).bind (desugarOp .gt)
  | '<' :: rest => (parseXRange rest).bind (desugarOp .lt)
  | '=' :: rest => (parseXRange rest).bind (desugarOp .eq)
  | '^' :: rest => (parseXRange rest).map desugarCaret
  | '~' :: rest => (parseXRange rest).map desugarTilde
  | _ => (parseXRange t).map desugarPlain

/-- Validate that `||` separators pair up, returning the alternative parts. -/
def altParts : List (List Char) → Option (List (List Char))
  | [] => none
  | [p] => some [p]
  | p :: e :: rest =>
    if e.isEmpty then (altParts rest).map (fun ts => p :: ts) else none

/-- Parse one alternative (a conjunction of comparator tokens). -/
def parseRangeSet (part : List Char) : Option (List Comparator) :=
  let toks := (splitPredCL isWsChar part).filter (fun t => !t.isEmpty)
  match toks.mapM parseCompToken with
  | some css => some (css.foldr (fun a b => a ++ b) [])
  | none => none

/-- Model of `new semver.Range(...)`: `||`-separated alternatives, each a
whitespace conjunction of comparators; `none` models the constructor throw. -/
def Semver.parseRange (s : String) : Option (List (List Comparator)) :=
  match altParts (splitOnCharCL '|' s.data) with
  | none => none
  | some parts => (parts.map trimCL).mapM parseRangeSet

/-- Decimal rendering of a prerelease identifier. -/
def PreId.pp : PreId → String
  | .num n => toString n
  | .str s => s

/-- Normalized rendering of a version (build metadata not shown in ranges). -/
def SemverV.pp (v : SemverV) : String :=
  toString v.major ++ "." ++ toString v.minor ++ "." ++ toString v.patch ++
  (if v.prerelease.isEmpty then ""
   else "-" ++ String.intercalate "." (v.prerelease.map PreId.pp))

/-- Rendering of a comparator operator. -/
def CompOp.pp : CompOp → String
  | .eq => ""
  | .lt => "<"
  | .le => "<="
  | .gt => ">"
  | .ge => ">="

/-- Normalized rendering of a parsed range. -/
def ppRange (r : List (List Comparator)) : String :=
  String.intercalate "||"
    (r.map (fun cs => String.intercalate " " (cs.map (fun c => c.op.pp ++ c.ver.pp))))

/-- Model of `semver.validRange`: the normalized range string, or null. -/
def validRange (r : String) : Option String :=
  match Semver.parseRange r with
  | none => none
  | some rng =>
    let s := ppRange rng
    some (if s = "" then "*" else s)

/-- Does a version pass one comparator? -/
def Semver.testCmp (v : SemverV) (c : Comparator) : Bool :=
  match c.op, SemverV.cmp v c.ver with
  | .eq, .eq => true
  | .lt, .lt => true
  | .le, .lt => true
  | .le, .eq => true
  | .gt, .gt => true
  | .ge, .gt => true
  | .ge, .eq => true
  | _, _ => false

/-- Equality of the numeric triples of two versions. -/
def sameTuple (a b : SemverV) : Bool :=
  a.major == b.major && a.minor == b.minor && a.patch == b.patch

/-- Does a version satisfy a conjunction of comparators?  A prerelease
version additionally requires (unless `includePrerelease`) some comparator
with a prerelease on the same numeric triple. -/
def satisfiesSet (v : SemverV) (cs : List Comparator) (incl : Bool) : Bool :=
  cs.all (Semver.testCmp v) &&
  (incl || v.prerelease.isEmpty ||
    cs.any (fun c => !c.ver.prerelease.isEmpty && sameTuple v c.ver))

/-- Does a version satisfy a parsed range? -/
def Semver.satisfiesV (v : SemverV) (r : List (List Comparator)) (incl : Bool) : Bool :=
  r.any (fun cs => satisfiesSet v cs incl)

/-- `semver.satisfies` against a parsed range; invalid versions never match. -/
def Semver.satisfiesParsed (v : String) (r : List (List Comparator)) (incl : Bool) : Bool :=
  match Semver.parse v with
  | some sv => Semver.satisfiesV sv r incl
  | none => false

/-- `semver.satisfies` on strings; an invalid range matches nothing. -/
def Semver.satisfiesStr (v rangeStr : String) (incl : Bool) : Bool :=
  match Semver.parseRange rangeStr with
  | some r => Semver.satisfiesParsed v r incl
  | none => false

/-- `semver.compare` on strings (total on the valid versions it is used on). -/
def Semver.cmpStr (a b : String) : Ordering :=
  match Semver.parse a, Semver.parse b with
  | some x, some y => SemverV.cmp x y
  | _, _ => .eq

/-- One step of the `maxSatisfying` scan: keep the current maximum unless the
next version satisfies the range and is strictly greater. -/
def Semver.maxStep (r : List (List Comparator)) (incl : Bool)
    (mx : Option String) (v : String) : Option String :=
  if Semver.satisfiesParsed v r incl then
    match mx with
    | none => some v
    | some m => if Semver.cmpStr m v = .lt then some v else mx
  else mx

/-- Model of `semver.maxSatisfying(versions, range, { includePrerelease })`:
null on an invalid range, otherwise the greatest satisfying version. -/
def Semver.maxSatisfyingFn (versions : List String) (rangeStr : String)
    (incl : Bool) : Option String :=
  match Semver.parseRange rangeStr with
  | none => none
  | some r => versions.foldl (Semver.maxStep r incl) none

/- ### src/helpers.ts -/

/-- Embedding of `streamToString`: the body's text with trailing whitespace
removed (`Buffer.concat(chunks).toString("utf-8").trimEnd()`). -/
def streamToString (body : String) : String :=
  jsTrimEnd body

/-- Embedding of `verifyHash`.  `fileBytes` is the artifact body as bytes
(`streamToBuffer(file.Body)`), `hashBody` the digest file body.  The local
SHA-256 hex digest is compared against the trimmed digest text; on a
mismatch with a truthy `exception` string the function throws an
`InternalServerError` carrying it, otherwise it returns the boolean. -/
def verifyHash (fileBytes : List Nat) (hashBody : String)
    (exception : Option String) : Except Err Bool :=
  let remoteHash := streamToString hashBody
  let localHash := sha256Hex fileBytes
  let ok := jsTrim remoteHash == localHash
  match exception with
  | some e => if ok then .ok ok else if e == "" then .ok ok else .error (.internal e)
  | none => .ok ok

/-- Embedding of `toSemverRange`: a missing or empty range becomes "*", an
invalid range degrades to "*" (`validRange(range) || "*"`), a valid range is
returned in `validRange`'s normalized form. -/
def toSemverRange (range : Option String) : String :=
  match range with
  | none => "*"
  | some r =>
    if r == "" then "*"
    else
      match validRange r with
      | none => "*"
      | some s => if s == "" then "*" else s

/-- Embedding of `getDeviceRolloutBucket`: MD5 of the device id, first eight
hex digits parsed base 16, reduced modulo 100. -/
def getDeviceRolloutBucket (deviceId : String) : Nat :=
  let hash := md5Hex (strBytes deviceId)
  let hp := ⟨hash.data.take 8⟩
  parseHexNat hp % 100

/- ### S3/R2 object-store model

The store is a finite map from keys to object bodies; a body of `none`
models an object record whose `Body` stream is undefined (exercised by the
repository's tests).  `GetObject` on an absent key rejects with the S3
client's own error, which is not one of the repository's error classes. -/

/-- The object-store state. -/
structure S3State where
  objects : List (String × Option String)
  deriving DecidableEq, Repr

/-- Environment of the handlers: the store plus the R2_CDN_URL base. -/
structure Env where
  s3 : S3State
  baseUrl : String
  deriving DecidableEq, Repr

/-- Embedding of `s3ObjectExists` (HeadObject succeeding). -/
def s3ObjectExists (s3 : S3State) (key : String) : Bool :=
  s3.objects.any (fun kv => kv.1 == key)

/-- Model of `GetObjectCommand`: `none` is the client's NoSuchKey rejection. -/
def s3GetObject (s3 : S3State) (key : String) : Option (Option String) :=
  s3.objects.lookup key

/-- S3 `ListObjectsV2` CommonPrefixes semantics with delimiter "/": for each
key extending the listed prefix and containing a further "/", the key
prefix up to and including that "/", without duplicates. -/
def s3ListCommonPrefixes (s3 : S3State) (pfx : String) : List String :=
  (s3.objects.foldl
    (fun acc kv =>
      if pfx.data.isPrefixOf kv.1.data then
        let rest := kv.1.data.drop pfx.data.length
        if rest.contains '/' then
          let cp : String := ⟨pfx.data ++ (rest.takeWhile (fun c => c != '/')).concat '/'⟩
          if acc.contains cp then acc else acc ++ [cp]
        else acc
      else acc)
    [])

/-- Embedding of `versionHasSkuSupport`: ListObjectsV2 on
`{prefix}/{version}/skus/` returns at least one object. -/
def versionHasSkuSupport (s3 : S3State) (k : RelKind) (version : String) : Bool :=
  s3.objects.any (fun kv => (k.str ++ "/" ++ version ++ "/skus/").data.isPrefixOf kv.1.data)

/- ### src/releases.ts -/

/-- The platform default SKU constant. -/
def DEFAULT_SKU : String := "jetkvm-v2"

/-- Embedding of the `ReleaseMetadata` interface. -/
structure ReleaseMetadata where
  version : String
  url : String
  hash : String
  cachedAt : Option Nat
  maxSat : Option String
  deriving DecidableEq, Repr

/-- The in-process release cache (the LRU/TTL policy belongs to the
lru-cache library; the map content is modelled, freshest entry first). -/
abbrev Cache := List (String × ReleaseMetadata)

/-- The default artifact name per kind. -/
def defaultArtifact (k : RelKind) : String :=
  match k with
  | .app => "jetkvm_app"
  | .system => "system.tar"

/-- Embedding of `resolveArtifactPath`.  SKU-partitioned versions must hold
the exact requested SKU's artifact; legacy versions serve only the default
SKU from the legacy path. -/
def resolveArtifactPath (s3 : S3State) (k : RelKind) (version sku : String)
    (artifactOverride : Option String) : Except Err String :=
  let artifact := artifactOverride.getD (defaultArtifact k)
  if versionHasSkuSupport s3 k version then
    let skuPath := k.str ++ "/" ++ version ++ "/skus/" ++ sku ++ "/" ++ artifact
    if s3ObjectExists s3 skuPath then .ok skuPath
    else .error (.notFound ("SKU \"" ++ sku ++ "\" is not available for version " ++ version))
  else if sku == DEFAULT_SKU then .ok (k.str ++ "/" ++ version ++ "/" ++ artifact)
  else
    .error (.notFound ("Version " ++ version ++ " predates SKU support and cannot serve SKU \"" ++ sku ++ "\""))

/-- The release cache key `prefix-includePrerelease-maxSatisfying-sku`. -/
def cacheKeyOf (k : RelKind) (includePrerelease : Bool) (maxSatisfying sku : String) : String :=
  k.str ++ "-" ++ toString includePrerelease ++ "-" ++ maxSatisfying ++ "-" ++ sku

/-- The version folder names listed under a kind, after the
`.filter(Boolean)` step (`cp.Prefix.split("/")[1]`, dropping empties). -/
def listedVersions (s3 : S3State) (k : RelKind) : List String :=
  ((s3ListCommonPrefixes s3 (k.str ++ "/")).map
      (fun cp => (jsSplit cp '/').getD 1 "")).filter (fun v => v != "")

/-- The listed folder names that are syntactically valid semver. -/
def validListedVersions (s3 : S3State) (k : RelKind) : List String :=
  (listedVersions s3 k).filter (fun v => Semver.validB v)

/-- Embedding of `getLatestVersion`: serve from cache if present, otherwise
list versions, filter to valid semver, pick the max satisfying version,
resolve its artifact path, fetch the digest file, and cache the metadata.
Returns the result together with the updated cache. -/
def getLatestVersion (env : Env) (cache : Cache) (now : Nat) (k : RelKind)
    (includePrerelease : Bool) (maxSatisfyingArg : Option String) (sku : String) :
    Except Err ReleaseMetadata × Cache :=
  let maxSatisfying := maxSatisfyingArg.getD "*"
  let cacheKey := cacheKeyOf k includePrerelease maxSatisfying sku
  match cache.lookup cacheKey with
  | some cached => (.ok cached, cache)
  | none =>
    let commonPrefixes := s3ListCommonPrefixes env.s3 (k.str ++ "/")
    if commonPrefixes.isEmpty then
      (.error (.notFound ("No versions found under prefix " ++ k.str)), cache)
    else
      let versions := validListedVersions env.s3 k
      if versions.isEmpty then
        (.error (.notFound ("No valid versions found under prefix " ++ k.str)), cache)
      else
        match Semver.maxSatisfyingFn versions maxSatisfying includePrerelease with
        | none =>
          (.error (.notFound ("No version found under prefix " ++ k.str ++ " that satisfies " ++ maxSatisfying)), cache)
        | some latestVersion =>
          match resolveArtifactPath env.s3 k latestVersion sku none with
          | .error e => (.error e, cache)
          | .ok selectedPath =>
            let url := env.baseUrl ++ "/" ++ selectedPath
            match s3GetObject env.s3 (selectedPath ++ ".sha256") with
            | none => (.error (.s3 "NoSuchKey"), cache)
            | some none => (.error (.s3 "The hash object Body is undefined"), cache)
            | some (some body) =>
              let hash := streamToString body
              let release : ReleaseMetadata :=
                ⟨latestVersion, url, hash, some now, some maxSatisfying⟩
              (.ok release, (cacheKey, release) :: cache)

/-- Embedding of the `Release` response record. -/
structure Release where
  appVersion : String
  appUrl : String
  appHash : String
  appCachedAt : Option Nat
  appMaxSatisfying : Option String
  systemVersion : String
  systemUrl : String
  systemHash : String
  systemCachedAt : Option Nat
  systemMaxSatisfying : Option String
  deriving DecidableEq, Repr

/-- Embedding of `setAppRelease`. -/
def setAppRelease (release : Release) (appRelease : ReleaseMetadata) : Release :=
  { release with
    appVersion := appRelease.version
    appUrl := appRelease.url
    appHash := appRelease.hash
    appCachedAt := appRelease.cachedAt
    appMaxSatisfying := appRelease.maxSat }

/-- Embedding of `setSystemRelease`. -/
def setSystemRelease (release : Release) (systemRelease : ReleaseMetadata) : Release :=
  { release with
    systemVersion := systemRelease.version
    systemUrl := systemRelease.url
    systemHash := systemRelease.hash
    systemCachedAt := systemRelease.cachedAt
    systemMaxSatisfying := systemRelease.maxSat }

/-- Embedding of `toRelease` at its two-argument call sites. -/
def toRelease (appRelease systemRelease : ReleaseMetadata) : Release :=
  ⟨appRelease.version, appRelease.url, appRelease.hash,
   appRelease.cachedAt, appRelease.maxSat,
   systemRelease.version, systemRelease.url, systemRelease.hash,
   systemRelease.cachedAt, systemRelease.maxSat⟩

/-- Embedding of `getReleaseFromS3`: resolve app then system metadata (the
source runs them concurrently on disjoint cache keys; either failure aborts). -/
def getReleaseFromS3 (env : Env) (cache : Cache) (now : Nat)
    (includePrerelease : Bool) (appVersion systemVersion : Option String)
    (sku : String) : Except Err Release × Cache :=
  match getLatestVersion env cache now .app includePrerelease appVersion sku with
  | (.error e, c1) => (.error e, c1)
  | (.ok appRelease, c1) =>
    match getLatestVersion env c1 now .system includePrerelease systemVersion sku with
    | (.error e, c2) => (.error e, c2)
    | (.ok systemRelease, c2) => (.ok (toRelease appRelease systemRelease), c2)

/- ### Persisted release store (prisma `release` table) -/

/-- One row of the persisted release table. -/
structure DbRelease where
  version : String
  type : RelKind
  rolloutPercentage : Nat
  url : String
  hash : String
  deriving DecidableEq, Repr

/-- The field selection of the upsert calls in `Retrieve`. -/
structure UpsertSelect where
  version : String
  url : String
  rolloutPercentage : Nat
  hash : String
  deriving DecidableEq, Repr

/-- The field selection of `getDefaultRelease`. -/
structure DefaultSelect where
  version : String
  url : String
  hash : String
  deriving DecidableEq, Repr

/-- Lookup by the unique `(version, type)` key. -/
def findRelease (db : List DbRelease) (version : String) (t : RelKind) : Option DbRelease :=
  db.find? (fun r => r.version == version && r.type == t)

/-- Modelled from the spec: prisma `release.upsert` with an empty `update`
clause — create-if-absent at the given defaults, else return the existing
row unchanged (§6 "upsertRelease(version, type, defaults) → Release"). -/
def upsertRelease (db : List DbRelease) (create : DbRelease) :
    UpsertSelect × List DbRelease :=
  match findRelease db create.version create.type with
  | some r => (⟨r.version, r.url, r.rolloutPercentage, r.hash⟩, db)
  | none => (⟨create.version, create.url, create.rolloutPercentage, create.hash⟩, db ++ [create])

/-- View of an upsert result as release metadata (the JS objects carry no
`_cachedAt`/`_maxSatisfying` fields, so those read as undefined). -/
def UpsertSelect.toMetadata (r : UpsertSelect) : ReleaseMetadata :=
  ⟨r.version, r.url, r.hash, none, none⟩

/-- View of a default-release row as release metadata. -/
def DefaultSelect.toMetadata (r : DefaultSelect) : ReleaseMetadata :=
  ⟨r.version, r.url, r.hash, none, none⟩

/-- Embedding of `isDeviceEligibleForLatestRelease`: 100% is always
eligible; otherwise the device's bucket must lie below the percentage. -/
def isDeviceEligibleForLatestRelease (rolloutPercentage : Nat) (deviceId : String) : Bool :=
  if rolloutPercentage == 100 then true
  else getDeviceRolloutBucket deviceId < rolloutPercentage

/-- Embedding of `getDefaultRelease`: among the kind's rows at exactly 100%
rollout, find the one carrying `semver.maxSatisfying(versions, "*")`; an
empty row set or a null max (all prereleases) is an `InternalServerError`. -/
def getDefaultRelease (db : List DbRelease) (t : RelKind) : Except Err DefaultSelect :=
  let rolledOutReleases : List DefaultSelect :=
    (db.filter (fun r => r.type == t && r.rolloutPercentage == 100)).map
      (fun r => ⟨r.version, r.url, r.hash⟩)
  if rolledOutReleases.isEmpty then
    .error (.internal ("No default release found for type " ++ t.str))
  else
    let latestVersion := Semver.maxSatisfyingFn (rolledOutReleases.map (fun r => r.version)) "*" false
    match rolledOutReleases.find? (fun r => latestVersion == some r.version) with
    | none => .error (.internal ("No default release found for type " ++ t.str))
    | some latestDefaultRelease => .ok latestDefaultRelease

/-- The parsed query of the main `Retrieve` endpoint (zod validation of the
raw HTTP query is the transport layer's job; `sku` already defaulted). -/
structure RetrieveQuery where
  deviceId : String
  prerelease : Bool
  appVersion : Option String
  systemVersion : Option String
  sku : String
  forceUpdate : Bool
  deriving DecidableEq, Repr

/-- Rendering of a thrown error interpolated into a template string. -/
def Err.render : Err → String
  | .badRequest m => "BadRequestError: " ++ m
  | .notFound m => "NotFoundError: " ++ m
  | .internal m => "InternalServerError: " ++ m
  | .s3 m => "Error: " ++ m

/-- The catch block of `Retrieve`'s S3 phase: rethrow `NotFoundError`,
wrap anything else as an `InternalServerError`. -/
def wrapS3Error (e : Err) : Err :=
  match e with
  | .notFound m => .notFound m
  | e => .internal ("Failed to get the latest release from S3: " ++ e.render)

/-- Embedding of the `Retrieve` handler.  Returns the response (or thrown
error), the release cache after the request, and the persisted release
table after the request.  Database writes persist even when a later step
throws, as they would against a real store. -/
def Retrieve (env : Env) (cache : Cache) (db : List DbRelease) (now : Nat)
    (q : RetrieveQuery) : Except Err Release × Cache × List DbRelease :=
  let appVersion := toSemverRange q.appVersion
  let systemVersion := toSemverRange q.systemVersion
  let skipRollout := appVersion != "*" || systemVersion != "*"
  match getReleaseFromS3 env cache now q.prerelease (some appVersion) (some systemVersion) q.sku with
  | (.error e, c1) => (.error (wrapS3Error e), c1, db)
  | (.ok remoteRelease, c1) =>
    if q.prerelease || skipRollout then (.ok remoteRelease, c1, db)
    else
      let appUp := upsertRelease db
        ⟨remoteRelease.appVersion, .app, 10, remoteRelease.appUrl, remoteRelease.appHash⟩
      let latestAppRelease := appUp.1
      let sysUp := upsertRelease appUp.2
        ⟨remoteRelease.systemVersion, .system, 10, remoteRelease.systemUrl, remoteRelease.systemHash⟩
      let latestSystemRelease := sysUp.1
      let db2 := sysUp.2
      if q.forceUpdate then
        (.ok (toRelease latestAppRelease.toMetadata latestSystemRelease.toMetadata), c1, db2)
      else
        match getDefaultRelease db2 .app with
        | .error e => (.error e, c1, db2)
        | .ok defaultAppRelease =>
          match getDefaultRelease db2 .system with
          | .error e => (.error e, c1, db2)
          | .ok defaultSystemRelease =>
            let responseJson := toRelease defaultAppRelease.toMetadata defaultSystemRelease.toMetadata
            let responseJson :=
              if isDeviceEligibleForLatestRelease latestAppRelease.rolloutPercentage q.deviceId then
                setAppRelease responseJson latestAppRelease.toMetadata
              else responseJson
            let responseJson :=
              if isDeviceEligibleForLatestRelease latestSystemRelease.rolloutPercentage q.deviceId then
                setSystemRelease responseJson latestSystemRelease.toMetadata
              else responseJson
            (.ok responseJson, c1, db2)

/-- The parsed query of the redirect endpoints. -/
structure LatestQuery where
  prerelease : Bool
  sku : String
  deriving DecidableEq, Repr

/-- Embedding of the `RetrieveLatestApp` callback (inside `cachedRedirect`):
list app versions, filter valid semver, pick the max, resolve the artifact
path, fetch the artifact and its digest file, verify the hash (fatally),
and return the redirect target. -/
def RetrieveLatestAppCore (env : Env) (query : LatestQuery) : Except Err String :=
  let commonPrefixes := s3ListCommonPrefixes env.s3 "app/"
  if commonPrefixes.isEmpty then .error (.notFound "No app versions found")
  else
    let versions :=
      (commonPrefixes.map (fun cp => (jsSplit cp '/').getD 1 "")).filter
        (fun v => Semver.validB v)
    match Semver.maxSatisfyingFn versions "*" query.prerelease with
    | none => .error (.notFound "No valid app versions found")
    | some latestVersion =>
      match resolveArtifactPath env.s3 .app latestVersion query.sku none with
      | .error e => .error e
      | .ok artifactPath =>
        match s3GetObject env.s3 artifactPath with
        | none => .error (.s3 "NoSuchKey")
        | some appBody =>
          match s3GetObject env.s3 (artifactPath ++ ".sha256") with
          | none => .error (.s3 "NoSuchKey")
          | some hashBody =>
            match appBody, hashBody with
            | some appFileBody, some hashFileBody =>
              match verifyHash (strBytes appFileBody) hashFileBody (some "app hash does not match") with
              | .error e => .error e
              | .ok _ => .ok (env.baseUrl ++ "/" ++ artifactPath)
            | _, _ =>
              .error (.notFound ("App or hash file not found for version " ++ latestVersion))

/-- The redirect cache key of `releaseCacheKey`. -/
def releaseCacheKey (pre : String) (query : LatestQuery) : String :=
  pre ++ "-" ++ (if query.prerelease then "pre" else "stable") ++ "-" ++ query.sku

/-- Embedding of `cachedRedirect` around the app callback: serve a cached
redirect target, or run the callback and cache its result. -/
def RetrieveLatestApp (env : Env) (redirectCache : List (String × String))
    (query : LatestQuery) : Except Err String × List (String × String) :=
  let cacheKey := releaseCacheKey "app" query
  match redirectCache.lookup cacheKey with
  | some result => (.ok result, redirectCache)
  | none =>
    match RetrieveLatestAppCore env query with
    | .error e => (.error e, redirectCache)
    | .ok result => (.ok result, (cacheKey, result) :: redirectCache)


/- ### Concrete fixtures used by the claim witnesses -/

/-- A legacy-layout store: version 1.0.0 has no skus/ partition. -/
def fixtureLegacyS3 : S3State :=
  ⟨[("app/1.0.0/jetkvm_app", some "bin")]⟩

/-- A SKU-partitioned store: version 2.0.0 holds only the default SKU. -/
def fixtureSkuS3 : S3State :=
  ⟨[("app/2.0.0/skus/jetkvm-v2/jetkvm_app", some "bin")]⟩

/-- A store with one app and one system version, for the Retrieve witnesses. -/
def fixtureC2Env : Env :=
  ⟨⟨[("app/1.0.0/jetkvm_app", some "ba"),
     ("app/1.0.0/jetkvm_app.sha256", some "ha"),
     ("system/1.0.0/system.tar", some "bs"),
     ("system/1.0.0/system.tar.sha256", some "hs")]⟩, "https://cdn.test.com"⟩

/-- Same store content, used by the upsert-path witness. -/
def fixtureC5Env : Env :=
  ⟨⟨[("app/1.0.0/jetkvm_app", some "ba"),
     ("app/1.0.0/jetkvm_app.sha256", some "ha"),
     ("system/1.0.0/system.tar", some "bs"),
     ("system/1.0.0/system.tar.sha256", some "hs")]⟩, "https://cdn.test.com"⟩

/-- The spec's example listing {1.0.0, 1.1.0, 2.0.0-beta.1} plus a junk
folder name, with digest files for the two selectable versions. -/
def fixtureC7Env : Env :=
  ⟨⟨[("app/1.0.0/jetkvm_app", some "b100"),
     ("app/1.1.0/jetkvm_app", some "b110"),
     ("app/1.1.0/jetkvm_app.sha256", some "h110"),
     ("app/2.0.0-beta.1/jetkvm_app", some "b200"),
     ("app/2.0.0-beta.1/jetkvm_app.sha256", some "h200"),
     ("app/junk/readme", some "j")]⟩, "https://cdn.test.com"⟩

/-- A store whose digest file matches the artifact (SHA-256 of "abc"). -/
def fixtureC8Env : Env :=
  ⟨⟨[("app/1.0.0/jetkvm_app", some "abc"),
     ("app/1.0.0/jetkvm_app.sha256",
      some "ba7816bf8f01cfea414140de5dae2223b00361a396177a9cb410ff61f20015ad")]⟩,
   "https://cdn.test.com"⟩

/- ### Order lemmas for the semver comparator -/

theorem natCmp_eq_lt {a b : Nat} : natCmp a b = .lt ↔ a < b := by
  by_cases h1 : a < b
  · simp [natCmp, h1]
  · by_cases h2 : a = b <;> simp [natCmp, h1, h2]

theorem natCmp_eq_eq {a b : Nat} : natCmp a b = .eq ↔ a = b := by
  by_cases h1 : a < b
  · simp [natCmp, h1]; omega
  · by_cases h2 : a = b <;> simp [natCmp, h1, h2]

theorem natCmp_eq_gt {a b : Nat} : natCmp a b = .gt ↔ b < a := by
  by_cases h1 : a < b
  · simp [natCmp, h1]; omega
  · by_cases h2 : a = b <;> simp [natCmp, h1, h2] <;> omega

theorem natCmp_refl (a : Nat) : natCmp a a = .eq :=
  natCmp_eq_eq.2 rfl

theorem natCmp_swap (a b : Nat) : natCmp a b = (natCmp b a).swap := by
  rcases Nat.lt_trichotomy a b with h | h | h
  · rw [natCmp_eq_lt.2 h, natCmp_eq_gt.2 h]; rfl
  · subst h; rw [natCmp_refl]; rfl
  · rw [natCmp_eq_gt.2 h, natCmp_eq_lt.2 h]; rfl

theorem charCmp_eq_eq {a b : Char} : charCmp a b = .eq ↔ a.toNat = b.toNat := by
  unfold charCmp; exact natCmp_eq_eq

theorem strCmpCL_refl : ∀ l : List Char, strCmpCL l l = .eq
  | [] => rfl
  | c :: cs => by
    simp only [strCmpCL, charCmp, natCmp_refl, strCmpCL_refl cs]
    rfl

theorem strCmpCL_swap : ∀ a b : List Char, strCmpCL a b = (strCmpCL b a).swap
  | [], [] => rfl
  | [], _ :: _ => rfl
  | _ :: _, [] => rfl
  | a :: as, b :: bs => by
    simp only [strCmpCL, Ordering.swap_then, ← natCmp_swap, charCmp, ← strCmpCL_swap as bs]

theorem strCmpCL_lt_trans : ∀ p q r : List Char,
    strCmpCL p q = .lt → strCmpCL q r = .lt → strCmpCL p r = .lt
  | [], [], _ => by intro h _; exact absurd h (by simp [strCmpCL])
  | [], _ :: _, [] => by intro _ h; exact absurd h (by simp [strCmpCL])
  | [], _ :: _, _ :: _ => by intro _ _; rfl
  | _ :: _, [], _ => by intro h _; exact absurd h (by simp [strCmpCL])
  | _ :: _, _ :: _, [] => by intro _ h; exact absurd h (by simp [strCmpCL])
  | a :: as, b :: bs, c :: cs => by
    intro h1 h2
    simp only [strCmpCL, Ordering.then_eq_lt, charCmp, natCmp_eq_lt, natCmp_eq_eq] at h1 h2 ⊢
    rcases h1 with h1 | ⟨e1, h1⟩ <;> rcases h2 with h2 | ⟨e2, h2⟩
    · left; omega
    · left; omega
    · left; omega
    · right; exact ⟨by omega, strCmpCL_lt_trans as bs cs h1 h2⟩

theorem strCmpCL_eq_congr_r : ∀ {a b : List Char}, strCmpCL a b = .eq →
    ∀ c, strCmpCL c a = strCmpCL c b
  | [], [], _, _ => rfl
  | [], _ :: _, h, _ => absurd h (by simp [strCmpCL])
  | _ :: _, [], h, _ => absurd h (by simp [strCmpCL])
  | a :: as, b :: bs, h, c => by
    simp only [strCmpCL, Ordering.then_eq_eq, charCmp, natCmp_eq_eq] at h
    obtain ⟨e, htl⟩ := h
    cases c with
    | nil => rfl
    | cons z zs =>
      simp only [strCmpCL, charCmp, e, strCmpCL_eq_congr_r htl zs]

theorem strCmpCL_eq_congr_l : ∀ {a b : List Char}, strCmpCL a b = .eq →
    ∀ c, strCmpCL a c = strCmpCL b c
  | [], [], _, _ => rfl
  | [], _ :: _, h, _ => absurd h (by simp [strCmpCL])
  | _ :: _, [], h, _ => absurd h (by simp [strCmpCL])
  | a :: as, b :: bs, h, c => by
    simp only [strCmpCL, Ordering.then_eq_eq, charCmp, natCmp_eq_eq] at h
    obtain ⟨e, htl⟩ := h
    cases c with
    | nil => rfl
    | cons z zs =>
      simp only [strCmpCL, charCmp, e, strCmpCL_eq_congr_l htl zs]

theorem preIdCmp_refl : ∀ a : PreId, a.cmp a = .eq
  | .num n => natCmp_refl n
  | .str s => strCmpCL_refl s.data

theorem preIdCmp_swap : ∀ a b : PreId, a.cmp b = (b.cmp a).swap
  | .num _, .num _ => natCmp_swap _ _
  | .num _, .str _ => rfl
  | .str _, .num _ => rfl
  | .str _, .str _ => strCmpCL_swap _ _

theorem preIdCmp_lt_trans : ∀ {a b c : PreId}, a.cmp b = .lt → b.cmp c = .lt → a.cmp c = .lt
  | .num _, .num _, .num _, h1, h2 => by
    simp only [PreId.cmp, natCmp_eq_lt] at h1 h2 ⊢; omega
  | .num _, .num _, .str _, _, _ => rfl
  | .num _, .str _, .num _, _, h2 => absurd h2 (by simp [PreId.cmp])
  | .num _, .str _, .str _, _, _ => rfl
  | .str _, .num _, _, h1, _ => absurd h1 (by simp [PreId.cmp])
  | .str _, .str _, .num _, _, h2 => absurd h2 (by simp [PreId.cmp])
  | .str _, .str _, .str _, h1, h2 => strCmpCL_lt_trans _ _ _ h1 h2

theorem preIdCmp_eq_congr_r : ∀ {a b : PreId}, a.cmp b = .eq → ∀ c : PreId, c.cmp a = c.cmp b
  | .num n, .num m, h, c => by
    have e : n = m := natCmp_eq_eq.1 h
    subst e
    rfl
  | .num _, .str _, h, _ => absurd h (by simp [PreId.cmp])
  | .str _, .num _, h, _ => absurd h (by simp [PreId.cmp])
  | .str s, .str t, h, c => by
    cases c with
    | num n => rfl
    | str u => exact strCmpCL_eq_congr_r h u.data

theorem preIdCmp_eq_congr_l : ∀ {a b : PreId}, a.cmp b = .eq → ∀ c : PreId, a.cmp c = b.cmp c
  | .num n, .num m, h, c => by
    have e : n = m := natCmp_eq_eq.1 h
    subst e
    rfl
  | .num _, .str _, h, _ => absurd h (by simp [PreId.cmp])
  | .str _, .num _, h, _ => absurd h (by simp [PreId.cmp])
  | .str s, .str t, h, c => by
    cases c with
    | num n => rfl
    | str u => exact strCmpCL_eq_congr_l h u.data

theorem cmpIds_refl : ∀ l : List PreId, cmpIds l l = .eq
  | [] => rfl
  | a :: as => by
    simp only [cmpIds, preIdCmp_refl, cmpIds_refl as]
    rfl

theorem cmpIds_swap : ∀ a b : List PreId, cmpIds a b = (cmpIds b a).swap
  | [], [] => rfl
  | [], _ :: _ => rfl
  | _ :: _, [] => rfl
  | a :: as, b :: bs => by
    simp only [cmpIds, Ordering.swap_then, ← preIdCmp_swap, ← cmpIds_swap as bs]

theorem cmpIds_lt_trans : ∀ {p q r : List PreId},
    cmpIds p q = .lt → cmpIds q r = .lt → cmpIds p r = .lt
  | [], [], _, h, _ => absurd h (by simp [cmpIds])
  | [], _ :: _, [], _, h => absurd h (by simp [cmpIds])
  | [], _ :: _, _ :: _, _, _ => rfl
  | _ :: _, [], _, h, _ => absurd h (by simp [cmpIds])
  | _ :: _, _ :: _, [], _, h => absurd h (by simp [cmpIds])
  | a :: as, b :: bs, c :: cs, h1, h2 => by
    simp only [cmpIds, Ordering.then_eq_lt] at h1 h2 ⊢
    rcases h1 with h1 | ⟨e1, h1⟩ <;> rcases h2 with h2 | ⟨e2, h2⟩
    · exact .inl (preIdCmp_lt_trans h1 h2)
    · left; rw [← preIdCmp_eq_congr_r e2 a]; exact h1
    · left; rw [preIdCmp_eq_congr_l e1 c]; exact h2
    · right
      refine ⟨?_, cmpIds_lt_trans h1 h2⟩
      rw [preIdCmp_eq_congr_l e1 c]; exact e2

theorem cmpIds_eq_congr_r : ∀ {a b : List PreId}, cmpIds a b = .eq →
    ∀ c, cmpIds c a = cmpIds c b
  | [], [], _, _ => rfl
  | [], _ :: _, h, _ => absurd h (by simp [cmpIds])
  | _ :: _, [], h, _ => absurd h (by simp [cmpIds])
  | a :: as, b :: bs, h, c => by
    simp only [cmpIds, Ordering.then_eq_eq] at h
    obtain ⟨e, htl⟩ := h
    cases c with
    | nil => rfl
    | cons z zs =>
      simp only [cmpIds, preIdCmp_eq_congr_r e z, cmpIds_eq_congr_r htl zs]

theorem cmpPre_refl : ∀ l : List PreId, cmpPre l l = .eq
  | [] => rfl
  | a :: as => cmpIds_refl (a :: as)

theorem cmpPre_swap : ∀ a b : List PreId, cmpPre a b = (cmpPre b a).swap
  | [], [] => rfl
  | [], _ :: _ => rfl
  | _ :: _, [] => rfl
  | a :: as, b :: bs => cmpIds_swap (a :: as) (b :: bs)

theorem cmpPre_lt_trans : ∀ {p q r : List PreId},
    cmpPre p q = .lt → cmpPre q r = .lt → cmpPre p r = .lt
  | [], [], _, h, _ => absurd h (by simp [cmpPre])
  | [], _ :: _, _, h, _ => absurd h (by simp [cmpPre])
  | _ :: _, [], [], _, h => absurd h (by simp [cmpPre])
  | _ :: _, [], _ :: _, _, h => absurd h (by simp [cmpPre])
  | _ :: _, _ :: _, [], _, _ => rfl
  | a :: as, b :: bs, c :: cs, h1, h2 => cmpIds_lt_trans h1 h2

theorem cmpPre_eq_congr_r : ∀ {a b : List PreId}, cmpPre a b = .eq →
    ∀ c, cmpPre c a = cmpPre c b
  | [], [], _, _ => rfl
  | [], _ :: _, h, _ => absurd h (by simp [cmpPre])
  | _ :: _, [], h, _ => absurd h (by simp [cmpPre])
  | a :: as, b :: bs, h, c => by
    cases c with
    | nil => rfl
    | cons z zs => exact cmpIds_eq_congr_r (a := a :: as) (b := b :: bs) h (z :: zs)

theorem semCmp_refl (v : SemverV) : v.cmp v = .eq := by
  unfold SemverV.cmp
  rw [natCmp_refl, natCmp_refl, natCmp_refl, cmpPre_refl]
  rfl

theorem semCmp_swap (a b : SemverV) : a.cmp b = (b.cmp a).swap := by
  unfold SemverV.cmp
  rw [Ordering.swap_then, Ordering.swap_then, Ordering.swap_then,
    ← natCmp_swap, ← natCmp_swap, ← natCmp_swap, ← cmpPre_swap]

theorem semCmp_lt_trans {a b c : SemverV} (hab : a.cmp b = .lt)
    (hbc : b.cmp c = .lt) : a.cmp c = .lt := by
  unfold SemverV.cmp at hab hbc ⊢
  simp only [Ordering.then_eq_lt, Ordering.then_eq_eq, natCmp_eq_lt, natCmp_eq_eq] at hab hbc ⊢
  rcases hab with h1 | ⟨e1, h2 | ⟨e2, h3 | ⟨e3, h4⟩⟩⟩ <;>
    rcases hbc with g1 | ⟨f1, g2 | ⟨f2, g3 | ⟨f3, g4⟩⟩⟩ <;>
    first
      | (left; omega)
      | (right; exact ⟨by omega, .inl (by omega)⟩)
      | (right; exact ⟨by omega, .inr ⟨by omega, .inl (by omega)⟩⟩)
      | (right; exact ⟨by omega, .inr ⟨by omega, .inr ⟨by omega, cmpPre_lt_trans h4 g4⟩⟩⟩)

theorem semCmp_eq_parts {a b : SemverV} (h : a.cmp b = .eq) :
    a.major = b.major ∧ a.minor = b.minor ∧ a.patch = b.patch ∧
    cmpPre a.prerelease b.prerelease = .eq := by
  unfold SemverV.cmp at h
  simp only [Ordering.then_eq_eq, natCmp_eq_eq] at h
  exact ⟨h.1, h.2.1, h.2.2.1, h.2.2.2⟩

theorem semCmp_eq_congr_r {a b : SemverV} (h : a.cmp b = .eq) (c : SemverV) :
    c.cmp a = c.cmp b := by
  obtain ⟨h1, h2, h3, h4⟩ := semCmp_eq_parts h
  unfold SemverV.cmp
  rw [h1, h2, h3, cmpPre_eq_congr_r h4]

theorem semCmp_gt_to_lt {a b : SemverV} (h : a.cmp b = .gt) : b.cmp a = .lt := by
  have hs := semCmp_swap a b
  rw [h] at hs
  cases hb : b.cmp a
  · rfl
  · rw [hb] at hs; exact absurd hs (by decide)
  · rw [hb] at hs; exact absurd hs (by decide)

/- ### Lemmas about string-level compare and maxSatisfying -/

theorem satisfiesParsed_parse {v : String} {r : List (List Comparator)} {incl : Bool}
    (h : Semver.satisfiesParsed v r incl = true) : (Semver.parse v).isSome = true := by
  unfold Semver.satisfiesParsed at h
  cases hp : Semver.parse v with
  | none => rw [hp] at h; simp at h
  | some sv => simp

theorem cmpStr_refl (v : String) : Semver.cmpStr v v = .eq := by
  unfold Semver.cmpStr
  cases hp : Semver.parse v with
  | none => rfl
  | some sv => simp [semCmp_refl]

theorem cmpStr_lt_trans {a b c : String} (h1 : Semver.cmpStr a b = .lt)
    (h2 : Semver.cmpStr b c = .lt) : Semver.cmpStr a c = .lt := by
  unfold Semver.cmpStr at h1 h2 ⊢
  cases hpa : Semver.parse a <;> cases hpb : Semver.parse b <;> cases hpc : Semver.parse c <;>
    simp [hpa, hpb, hpc] at h1 h2 ⊢ <;>
    exact semCmp_lt_trans h1 h2

theorem cmpStr_gt_to_lt {a b : String} (h : Semver.cmpStr a b = .gt) :
    Semver.cmpStr b a = .lt := by
  unfold Semver.cmpStr at h ⊢
  cases hpa : Semver.parse a <;> cases hpb : Semver.parse b <;>
    simp [hpa, hpb] at h ⊢ <;>
    exact semCmp_gt_to_lt h

theorem cmpStr_eq_congr_r {a b : String} (ha : (Semver.parse a).isSome = true)
    (hb : (Semver.parse b).isSome = true) (h : Semver.cmpStr a b = .eq) (m : String) :
    Semver.cmpStr m a = Semver.cmpStr m b := by
  obtain ⟨pa, hpa⟩ := Option.isSome_iff_exists.1 ha
  obtain ⟨pb, hpb⟩ := Option.isSome_iff_exists.1 hb
  unfold Semver.cmpStr at h ⊢
  rw [hpa, hpb] at h
  cases hm : Semver.parse m with
  | none => rw [hpa, hpb]
  | some pm =>
    rw [hpa, hpb]
    exact semCmp_eq_congr_r h pm

theorem maxStep_unsat {r : List (List Comparator)} {incl : Bool} {acc : Option String}
    {v : String} (h : Semver.satisfiesParsed v r incl = false) :
    Semver.maxStep r incl acc v = acc := by
  simp [Semver.maxStep, h]

theorem maxFold_const (r : List (List Comparator)) (incl : Bool) :
    ∀ (vs : List String) (acc : Option String),
    (∀ v ∈ vs, Semver.satisfiesParsed v r incl = false) →
    vs.foldl (Semver.maxStep r incl) acc = acc
  | [], _, _ => rfl
  | v :: vs, acc, h => by
    rw [List.foldl_cons, maxStep_unsat (h v (by simp))]
    exact maxFold_const r incl vs acc (fun w hw => h w (by simp [hw]))

theorem maxFold_some (r : List (List Comparator)) (incl : Bool) :
    ∀ (vs : List String) (acc : Option String) (m : String),
    vs.foldl (Semver.maxStep r incl) acc = some m →
    acc = some m ∨ (m ∈ vs ∧ Semver.satisfiesParsed m r incl = true)
  | [], _, _, h => .inl h
  | v :: vs, acc, m, h => by
    rw [List.foldl_cons] at h
    rcases maxFold_some r incl vs (Semver.maxStep r incl acc v) m h with h' | ⟨hm, hs⟩
    · by_cases hv : Semver.satisfiesParsed v r incl = true
      · cases acc with
        | none =>
          rw [show Semver.maxStep r incl none v = some v from by simp [Semver.maxStep, hv]] at h'
          obtain rfl := Option.some.inj h'
          exact .inr ⟨by simp, hv⟩
        | some a =>
          by_cases hc : Semver.cmpStr a v = .lt
          · rw [show Semver.maxStep r incl (some a) v = some v from by
              simp [Semver.maxStep, hv, hc]] at h'
            obtain rfl := Option.some.inj h'
            exact .inr ⟨by simp, hv⟩
          · rw [show Semver.maxStep r incl (some a) v = some a from by
              simp [Semver.maxStep, hv, hc]] at h'
            exact .inl h'
      · rw [maxStep_unsat (by simpa using hv)] at h'
        exact .inl h'
    · exact .inr ⟨by simp [hm], hs⟩

theorem maxFold_mono (r : List (List Comparator)) (incl : Bool) :
    ∀ (vs : List String) (a m : String),
    vs.foldl (Semver.maxStep r incl) (some a) = some m →
    Semver.satisfiesParsed a r incl = true →
    Semver.cmpStr m a ≠ .lt ∧ Semver.satisfiesParsed m r incl = true
  | [], a, m, h, hsat => by
    obtain rfl := Option.some.inj h
    exact ⟨by simp [cmpStr_refl], hsat⟩
  | v :: vs, a, m, h, hsat => by
    rw [List.foldl_cons] at h
    by_cases hs : Semver.satisfiesParsed v r incl = true
    · by_cases hc : Semver.cmpStr a v = .lt
      · have hstep : Semver.maxStep r incl (some a) v = some v := by
          simp [Semver.maxStep, hs, hc]
        rw [hstep] at h
        obtain ⟨hge, hsm⟩ := maxFold_mono r incl vs v m h hs
        refine ⟨fun hlt => hge (cmpStr_lt_trans hlt hc), hsm⟩
      · have hstep : Semver.maxStep r incl (some a) v = some a := by
          simp [Semver.maxStep, hs, hc]
        rw [hstep] at h
        exact maxFold_mono r incl vs a m h hsat
    · rw [maxStep_unsat (by simpa using hs)] at h
      exact maxFold_mono r incl vs a m h hsat

theorem maxFold_ge (r : List (List Comparator)) (incl : Bool) :
    ∀ (vs : List String) (acc : Option String) (m : String),
    vs.foldl (Semver.maxStep r incl) acc = some m →
    (∀ a, acc = some a → Semver.satisfiesParsed a r incl = true) →
    ∀ v ∈ vs, Semver.satisfiesParsed v r incl = true → Semver.cmpStr m v ≠ .lt
  | [], _, _, _, _, v, hv, _ => absurd hv (by simp)
  | x :: xs, acc, m, h, hinv, v, hv, hs => by
    rw [List.foldl_cons] at h
    have hstepinv : ∀ a, Semver.maxStep r incl acc x = some a →
        Semver.satisfiesParsed a r incl = true := by
      intro a ha
      by_cases hx : Semver.satisfiesParsed x r incl = true
      · cases hacc2 : acc with
        | none =>
          rw [hacc2, show Semver.maxStep r incl none x = some x from by
            simp [Semver.maxStep, hx]] at ha
          obtain rfl := Option.some.inj ha
          exact hx
        | some b =>
          by_cases hc : Semver.cmpStr b x = .lt
          · rw [hacc2, show Semver.maxStep r incl (some b) x = some x from by
              simp [Semver.maxStep, hx, hc]] at ha
            obtain rfl := Option.some.inj ha
            exact hx
          · rw [hacc2, show Semver.maxStep r incl (some b) x = some b from by
              simp [Semver.maxStep, hx, hc]] at ha
            obtain rfl := Option.some.inj ha
            exact hinv b hacc2
      · rw [maxStep_unsat (by simpa using hx)] at ha
        exact hinv a ha
    rcases List.mem_cons.1 hv with rfl | hv'
    · cases hacc : acc with
      | none =>
        have hstep : Semver.maxStep r incl none v = some v := by
          simp [Semver.maxStep, hs]
        rw [hacc, hstep] at h
        exact (maxFold_mono r incl xs v m h hs).1
      | some b =>
        by_cases hc : Semver.cmpStr b v = .lt
        · have hstep : Semver.maxStep r incl (some b) v = some v := by
            simp [Semver.maxStep, hs, hc]
          rw [hacc, hstep] at h
          exact (maxFold_mono r incl xs v m h hs).1
        · have hstep : Semver.maxStep r incl (some b) v = some b := by
            simp [Semver.maxStep, hs, hc]
          rw [hacc, hstep] at h
          have hb : Semver.satisfiesParsed b r incl = true := hinv b hacc
          obtain ⟨hgeb, hsm⟩ := maxFold_mono r incl xs b m h hb
          intro hmv
          cases hbv : Semver.cmpStr b v with
          | lt => exact hc hbv
          | eq =>
            have hco : Semver.cmpStr m b = Semver.cmpStr m v :=
              cmpStr_eq_congr_r (satisfiesParsed_parse hb) (satisfiesParsed_parse hs) hbv m
            rw [← hco] at hmv
            exact hgeb hmv
          | gt =>
            exact hgeb (cmpStr_lt_trans hmv (cmpStr_gt_to_lt hbv))
    · exact maxFold_ge r incl xs (Semver.maxStep r incl acc x) m h hstepinv v hv' hs

theorem maxSatisfyingFn_spec {versions : List String} {rangeStr : String} {incl : Bool}
    {m : String} (h : Semver.maxSatisfyingFn versions rangeStr incl = some m) :
    m ∈ versions ∧ Semver.satisfiesStr m rangeStr incl = true ∧
    ∀ v ∈ versions, Semver.satisfiesStr v rangeStr incl = true → Semver.cmpStr m v ≠ .lt := by
  unfold Semver.maxSatisfyingFn at h
  cases hr : Semver.parseRange rangeStr with
  | none => rw [hr] at h; cases h
  | some r =>
    rw [hr] at h
    rcases maxFold_some r incl versions none m h with h1 | ⟨hm, hsm⟩
    · cases h1
    · refine ⟨hm, ?_, ?_⟩
      · unfold Semver.satisfiesStr
        rw [hr]
        exact hsm
      · intro v hv hsv
        refine maxFold_ge r incl versions none m h (fun a ha => by cases ha) v hv ?_
        unfold Semver.satisfiesStr at hsv
        rw [hr] at hsv
        exact hsv

theorem maxSatisfyingFn_none {versions : List String} {rangeStr : String} {incl : Bool}
    (hr : (Semver.parseRange rangeStr).isSome = true)
    (h : ∀ v ∈ versions, Semver.satisfiesStr v rangeStr incl = false) :
    Semver.maxSatisfyingFn versions rangeStr incl = none := by
  obtain ⟨r, hr⟩ := Option.isSome_iff_exists.1 hr
  unfold Semver.maxSatisfyingFn
  rw [hr]
  apply maxFold_const
  intro v hv
  have hh := h v hv
  unfold Semver.satisfiesStr at hh
  rw [hr] at hh
  exact hh

/- ### Evaluation checks of the collaborator models -/

example : md5Hex (strBytes "abc") = "900150983cd24fb0d6963f7d28e17f72" := by rfl

example : md5Hex (strBytes "") = "d41d8cd98f00b204e9800998ecf8427e" := by rfl

example : sha256Hex (strBytes "abc") =
    "ba7816bf8f01cfea414140de5dae2223b00361a396177a9cb410ff61f20015ad" := by rfl

example : sha256Hex (strBytes "") =
    "e3b0c44298fc1c149afbf4c8996fb92427ae41e4649b934ca495991b7852b855" := by rfl

example : Semver.parse "1.0.0" = some ⟨1, 0, 0, [], []⟩ := by rfl

example : Semver.parse "v1.2.3-rc.1+b5" = some ⟨1, 2, 3, [.str "rc", .num 1], ["b5"]⟩ := by rfl

example : Semver.parse "01.0.0" = none := by rfl

example : Semver.parse "1.0" = none := by rfl

example : Semver.parse "not-semver" = none := by rfl

example : Semver.maxSatisfyingFn ["1.0.0", "1.1.0", "2.0.0-beta.1"] "*" false = some "1.1.0" := by rfl

example : Semver.maxSatisfyingFn ["1.0.0", "1.1.0", "2.0.0-beta.1"] "*" true = some "2.0.0-beta.1" := by rfl

example : Semver.maxSatisfyingFn ["1.0.0", "1.1.0", "2.0.0"] "^1.0.0" false = some "1.1.0" := by rfl

example : Semver.maxSatisfyingFn ["1.0.0", "1.0.5", "1.1.0", "2.0.0"] "~1.0.0" false = some "1.0.5" := by rfl

example : Semver.maxSatisfyingFn ["3.0.0", "3.1.0-rc.1"] "^3.0.0" true = some "3.1.0-rc.1" := by rfl

example : Semver.satisfiesStr "3.0.0-rc.1" "^3.0.0" true = false := by rfl

example : validRange "not a range!" = none := by rfl

example : validRange "1.2.3" = some "1.2.3" := by rfl

example : validRange "^1.0.0" = some ">=1.0.0 <2.0.0-0" := by rfl

example : validRange "*" = some "*" := by rfl

/- ### Claim theorems -/

/-- C3: for every device identifier, `getDeviceRolloutBucket` yields an
integer in [0,100), and equal identifiers always yield the same bucket (the
bucket is a pure function of the input bytes; no seed or salt enters). -/
theorem claim_C3 (d1 d2 : String) (h : d1 = d2) :
    getDeviceRolloutBucket d1 < 100 ∧
    getDeviceRolloutBucket d1 = getDeviceRolloutBucket d2 := by
  constructor
  · unfold getDeviceRolloutBucket
    exact Nat.mod_lt _ (by norm_num)
  · rw [h]

theorem claim_C3_witness :
    getDeviceRolloutBucket "jetkvm" < 100 ∧
    getDeviceRolloutBucket "jetkvm" = getDeviceRolloutBucket "jetkvm" :=
  claim_C3 "jetkvm" "jetkvm" rfl

/-- C4: eligibility is unconditional at rollout percentage 100, at any other
percentage it holds exactly when the device's bucket lies below it; hence it
is monotone non-decreasing in the percentage, 100 is always eligible and 0
never is. -/
theorem claim_C4 (d : String) (p q : Nat) (hp : p ≤ 100) (hq : q ≤ 100) :
    isDeviceEligibleForLatestRelease 100 d = true ∧
    isDeviceEligibleForLatestRelease 0 d = false ∧
    (p ≠ 100 → (isDeviceEligibleForLatestRelease p d = true ↔ getDeviceRolloutBucket d < p)) ∧
    (p ≤ q → isDeviceEligibleForLatestRelease p d = true →
      isDeviceEligibleForLatestRelease q d = true) := by
  refine ⟨by simp [isDeviceEligibleForLatestRelease], ?_, ?_, ?_⟩
  · simp [isDeviceEligibleForLatestRelease]
  · intro hp100
    have h1 : (p == 100) = false := by simpa using hp100
    simp [isDeviceEligibleForLatestRelease, h1]
  · intro hpq he
    by_cases hq100 : q = 100
    · simp [isDeviceEligibleForLatestRelease, hq100]
    · have hp100 : p ≠ 100 := by omega
      have h1 : (p == 100) = false := by simpa using hp100
      have h2 : (q == 100) = false := by simpa using hq100
      simp [isDeviceEligibleForLatestRelease, h1, h2] at he ⊢
      omega

theorem claim_C4_witness :
    isDeviceEligibleForLatestRelease 100 "device-123" = true ∧
    isDeviceEligibleForLatestRelease 0 "device-123" = false ∧
    (0 ≠ 100 → (isDeviceEligibleForLatestRelease 0 "device-123" = true ↔
      getDeviceRolloutBucket "device-123" < 0)) ∧
    (0 ≤ 100 → isDeviceEligibleForLatestRelease 0 "device-123" = true →
      isDeviceEligibleForLatestRelease 100 "device-123" = true) :=
  claim_C4 "device-123" 0 100 (by decide) (by decide)

/-- C1: `resolveArtifactPath` fails NotFound ("SKU not available") on a
SKU-partitioned version whose partition lacks the requested SKU's artifact,
and fails NotFound ("predates SKU support") on a legacy version for any SKU
other than the default — in both cases an error, never a fallback path. -/
theorem claim_C1 (s3 : S3State) (k : RelKind) (version sku : String) (ov : Option String) :
    (versionHasSkuSupport s3 k version = true →
      s3ObjectExists s3
        (k.str ++ "/" ++ version ++ "/skus/" ++ sku ++ "/" ++ ov.getD (defaultArtifact k)) = false →
      resolveArtifactPath s3 k version sku ov =
        .error (.notFound ("SKU \"" ++ sku ++ "\" is not available for version " ++ version))) ∧
    (versionHasSkuSupport s3 k version = false → sku ≠ DEFAULT_SKU →
      resolveArtifactPath s3 k version sku ov =
        .error (.notFound
          ("Version " ++ version ++ " predates SKU support and cannot serve SKU \"" ++ sku ++ "\""))) := by
  constructor
  · intro hsku hex
    simp [resolveArtifactPath, hsku, hex]
  · intro hsku hdef
    have hb : (sku == DEFAULT_SKU) = false := by simpa using hdef
    simp [resolveArtifactPath, hsku, hb]

theorem claim_C1_witness :
    resolveArtifactPath fixtureLegacyS3 .app "1.0.0" "jetkvm-v3" none =
      .error (.notFound "Version 1.0.0 predates SKU support and cannot serve SKU \"jetkvm-v3\"") ∧
    resolveArtifactPath fixtureSkuS3 .app "2.0.0" "jetkvm-v9" none =
      .error (.notFound "SKU \"jetkvm-v9\" is not available for version 2.0.0") :=
  ⟨(claim_C1 fixtureLegacyS3 .app "1.0.0" "jetkvm-v3" none).2 (by decide) (by decide),
   (claim_C1 fixtureSkuS3 .app "2.0.0" "jetkvm-v9" none).1 (by decide) (by decide)⟩

/-- C9: range normalization maps a missing range to "*", an invalid range
string to "*" (no error is raised — the embedding is a total function into
plain strings), and a valid range to its normalized range form. -/
theorem claim_C9 (r s : String) :
    toSemverRange none = "*" ∧
    toSemverRange (some "") = "*" ∧
    (validRange r = none → toSemverRange (some r) = "*") ∧
    (validRange r = some s → s ≠ "" → toSemverRange (some r) = s) := by
  refine ⟨rfl, rfl, ?_, ?_⟩
  · intro h
    by_cases hr : r = "" <;> simp [toSemverRange, hr, h]
  · intro h hs
    by_cases hr : r = ""
    · subst hr
      have : s = "*" := by
        rw [show validRange "" = some "*" from rfl] at h
        exact (Option.some.inj h).symm
      subst this
      rfl
    · have hrb : (r == "") = false := by simpa using hr
      have hsb : (s == "") = false := by simpa using hs
      simp [toSemverRange, hrb, h, hsb]

theorem claim_C9_witness :
    toSemverRange (some "!!not-a-range!!") = "*" ∧
    toSemverRange (some "1.2.3") = "1.2.3" :=
  ⟨(claim_C9 "!!not-a-range!!" "").2.2.1 (by rfl),
   (claim_C9 "1.2.3" "1.2.3").2.2.2 (by rfl) (by decide)⟩

/-- A prerelease version does not satisfy "*" without includePrerelease. -/
theorem satStar_of_prerelease {v : String} (sv : SemverV)
    (hp : Semver.parse v = some sv) (hpre : sv.prerelease ≠ []) :
    Semver.satisfiesStr v "*" false = false := by
  unfold Semver.satisfiesStr
  rw [show Semver.parseRange "*" = some [[]] from rfl]
  unfold Semver.satisfiesParsed
  rw [hp]
  simp [Semver.satisfiesV, satisfiesSet, List.isEmpty_iff, hpre]

/-- When every 100%-rollout row of the kind fails the stable "*" filter,
`getDefaultRelease` throws its fatal server error (this covers both the
empty case and the all-prerelease case, through the same message). -/
theorem getDefaultRelease_all_unsat (db : List DbRelease) (t : RelKind)
    (h : ∀ r ∈ db, r.type = t → r.rolloutPercentage = 100 →
      Semver.satisfiesStr r.version "*" false = false) :
    getDefaultRelease db t =
      .error (.internal ("No default release found for type " ++ t.str)) := by
  unfold getDefaultRelease
  dsimp only
  split_ifs with hemp
  · rfl
  · have hnone : Semver.maxSatisfyingFn
        (((db.filter (fun r => r.type == t && r.rolloutPercentage == 100)).map
          (fun r => (⟨r.version, r.url, r.hash⟩ : DefaultSelect))).map
            (fun r => r.version)) "*" false = none := by
      apply maxSatisfyingFn_none (by rfl)
      intro v hv
      simp only [List.map_map, List.mem_map, Function.comp, List.mem_filter,
        Bool.and_eq_true, beq_iff_eq] at hv
      obtain ⟨row, ⟨hrdb, hty, hpc⟩, hveq⟩ := hv
      subst hveq
      exact h row hrdb hty hpc
    rw [hnone]
    have hfind : List.find?
        (fun r : DefaultSelect => (none : Option String) == some r.version)
        ((db.filter (fun r => r.type == t && r.rolloutPercentage == 100)).map
          (fun r => (⟨r.version, r.url, r.hash⟩ : DefaultSelect))) = none := by
      simp [List.find?_eq_none]
    rw [hfind]

/-- When `getDefaultRelease` succeeds, the returned row is one of the kind's
100%-rollout rows, its version passes the stable "*" filter, and no other
stable 100%-rollout row of the kind carries a semver-greater version. -/
theorem getDefaultRelease_ok_spec (db : List DbRelease) (t : RelKind)
    (sel : DefaultSelect) (h : getDefaultRelease db t = .ok sel) :
    (∃ r ∈ db, r.type = t ∧ r.rolloutPercentage = 100 ∧ r.version = sel.version ∧
      r.url = sel.url ∧ r.hash = sel.hash) ∧
    Semver.satisfiesStr sel.version "*" false = true ∧
    (∀ r ∈ db, r.type = t → r.rolloutPercentage = 100 →
      Semver.satisfiesStr r.version "*" false = true →
      Semver.cmpStr sel.version r.version ≠ .lt) := by
  unfold getDefaultRelease at h
  dsimp only at h
  split_ifs at h with hemp
  cases hf : List.find?
        (fun r : DefaultSelect =>
          Semver.maxSatisfyingFn
            (((db.filter (fun r => r.type == t && r.rolloutPercentage == 100)).map
              (fun r => (⟨r.version, r.url, r.hash⟩ : DefaultSelect))).map
                (fun r => r.version)) "*" false == some r.version)
        ((db.filter (fun r => r.type == t && r.rolloutPercentage == 100)).map
          (fun r => (⟨r.version, r.url, r.hash⟩ : DefaultSelect))) with
  | none =>
    rw [hf] at h
    exact Except.noConfusion h
  | some x =>
    rw [hf] at h
    obtain rfl : sel = x := (Except.ok.inj h).symm
    have hmem := List.mem_of_find?_eq_some hf
    have hpred := List.find?_some hf
    have hmax : Semver.maxSatisfyingFn
        (((db.filter (fun r => r.type == t && r.rolloutPercentage == 100)).map
          (fun r => (⟨r.version, r.url, r.hash⟩ : DefaultSelect))).map
            (fun r => r.version)) "*" false = some sel.version := by
      simpa [beq_iff_eq] using hpred
    obtain ⟨hmm, hsat, hge⟩ := maxSatisfyingFn_spec hmax
    refine ⟨?_, hsat, ?_⟩
    · simp only [List.mem_map, List.mem_filter, Bool.and_eq_true, beq_iff_eq] at hmem
      obtain ⟨row, ⟨hrdb, hty, hpc⟩, hroweq⟩ := hmem
      refine ⟨row, hrdb, hty, hpc, ?_, ?_, ?_⟩ <;> rw [← hroweq]
    · intro r hr hty hpc hs
      apply hge
      · simp only [List.map_map, List.mem_map, Function.comp]
        exact ⟨r, by simp [List.mem_filter, hr, hty, hpc], rfl⟩
      · exact hs

/-- C6 (amended): the default release is the persisted release with the
maximum semver version among the kind's 100%-rollout releases whose version
is stable (non-prerelease); when no such stable fully-rolled-out release
exists — including when 100%-rollout prereleases exist — the operation
fails with the fatal InternalServerError, not a client-visible NotFound. -/
theorem claim_C6 (db : List DbRelease) (t : RelKind) :
    ((∀ r ∈ db, r.type = t → r.rolloutPercentage = 100 →
        Semver.satisfiesStr r.version "*" false = false) →
      getDefaultRelease db t =
        .error (.internal ("No default release found for type " ++ t.str))) ∧
    (∀ sel, getDefaultRelease db t = .ok sel →
      (∃ r ∈ db, r.type = t ∧ r.rolloutPercentage = 100 ∧ r.version = sel.version ∧
        r.url = sel.url ∧ r.hash = sel.hash) ∧
      Semver.satisfiesStr sel.version "*" false = true ∧
      (∀ r ∈ db, r.type = t → r.rolloutPercentage = 100 →
        Semver.satisfiesStr r.version "*" false = true →
        Semver.cmpStr sel.version r.version ≠ .lt)) :=
  ⟨fun h => getDefaultRelease_all_unsat db t h,
   fun sel hsel => getDefaultRelease_ok_spec db t sel hsel⟩

/-- C6 counterexample: with rows 1.0.0@100% and 2.0.0-rc.1@100% for app,
the code returns 1.0.0 although 2.0.0-rc.1 is a 100%-rollout release of the
kind with a strictly greater semver version — refuting "the maximum semver
version among all persisted releases of that kind at rolloutPercentage
100". -/
theorem claim_C6_counterexample :
    getDefaultRelease
      [⟨"1.0.0", RelKind.app, 100, "u1", "h1"⟩,
       ⟨"2.0.0-rc.1", RelKind.app, 100, "u2", "h2"⟩] RelKind.app =
      .ok ⟨"1.0.0", "u1", "h1"⟩ ∧
    Semver.cmpStr "1.0.0" "2.0.0-rc.1" = .lt := by
  exact ⟨by rfl, by rfl⟩

theorem claim_C6_witness :
    getDefaultRelease [⟨"2.0.0-rc.1", RelKind.app, 100, "u", "h"⟩] RelKind.app =
      .error (.internal "No default release found for type app") :=
  (claim_C6 [⟨"2.0.0-rc.1", RelKind.app, 100, "u", "h"⟩] RelKind.app).1 (by decide)

/-- C10: if every 100%-rollout release of a kind carries a prerelease semver
version, `getDefaultRelease` fails with the fatal server error even though
fully-rolled-out releases of the kind exist, because the max-version
selection runs against "*" without includePrerelease. -/
theorem claim_C10 (db : List DbRelease) (t : RelKind)
    (hex : ∃ r ∈ db, r.type = t ∧ r.rolloutPercentage = 100)
    (hall : ∀ r ∈ db, r.type = t → r.rolloutPercentage = 100 →
      ∃ sv, Semver.parse r.version = some sv ∧ sv.prerelease ≠ []) :
    getDefaultRelease db t =
      .error (.internal ("No default release found for type " ++ t.str)) := by
  apply getDefaultRelease_all_unsat
  intro r hr hty hpc
  obtain ⟨sv, hps, hpre⟩ := hall r hr hty hpc
  exact satStar_of_prerelease sv hps hpre

theorem claim_C10_witness :
    getDefaultRelease [⟨"2.0.0-rc.1", RelKind.app, 100, "u", "h"⟩] RelKind.app =
      .error (.internal "No default release found for type app") :=
  claim_C10 [⟨"2.0.0-rc.1", RelKind.app, 100, "u", "h"⟩] RelKind.app
    ⟨⟨"2.0.0-rc.1", RelKind.app, 100, "u", "h"⟩, by simp, rfl, rfl⟩
    (by
      intro r hr hty hpc
      have hre : r = ⟨"2.0.0-rc.1", RelKind.app, 100, "u", "h"⟩ := by simpa using hr
      subst hre
      exact ⟨⟨2, 0, 0, [.str "rc", .num 1], []⟩, rfl, by decide⟩)

/-- C2: when the request pins either version range (normalization differs
from "*") or asks for prereleases, `Retrieve` returns exactly the
remote-resolved metadata (errors wrapped as in the source) with the
persisted release table passed through untouched, and the response does not
depend on the table's contents at all — the rollout store is neither read
nor written. -/
theorem claim_C2 (env : Env) (cache : Cache) (db db2 : List DbRelease) (now : Nat)
    (q : RetrieveQuery)
    (h : q.prerelease = true ∨ toSemverRange q.appVersion ≠ "*" ∨
      toSemverRange q.systemVersion ≠ "*") :
    Retrieve env cache db now q =
      (match getReleaseFromS3 env cache now q.prerelease (some (toSemverRange q.appVersion))
          (some (toSemverRange q.systemVersion)) q.sku with
        | (.error e, c1) => (.error (wrapS3Error e), c1, db)
        | (.ok r, c1) => (.ok r, c1, db)) ∧
    (Retrieve env cache db now q).1 = (Retrieve env cache db2 now q).1 := by
  have hcond : (q.prerelease ||
      (toSemverRange q.appVersion != "*" || toSemverRange q.systemVersion != "*")) = true := by
    rcases h with h | h | h <;> simp [h, bne_iff_ne]
  have hAll : ∀ dbx : List DbRelease, Retrieve env cache dbx now q =
      (match getReleaseFromS3 env cache now q.prerelease (some (toSemverRange q.appVersion))
          (some (toSemverRange q.systemVersion)) q.sku with
        | (.error e, c1) => (.error (wrapS3Error e), c1, dbx)
        | (.ok r, c1) => (.ok r, c1, dbx)) := by
    intro dbx
    unfold Retrieve
    dsimp only
    cases hg : getReleaseFromS3 env cache now q.prerelease (some (toSemverRange q.appVersion))
        (some (toSemverRange q.systemVersion)) q.sku with
    | mk res c1 =>
      cases res with
      | error e => rfl
      | ok r => simp [hcond]
  refine ⟨hAll db, ?_⟩
  rw [hAll db, hAll db2]
  cases getReleaseFromS3 env cache now q.prerelease (some (toSemverRange q.appVersion))
      (some (toSemverRange q.systemVersion)) q.sku with
  | mk res c1 => cases res <;> rfl

theorem claim_C2_witness :
    Retrieve fixtureC2Env [] [] 0 ⟨"dev", true, none, none, "jetkvm-v2", false⟩ =
      (match getReleaseFromS3 fixtureC2Env [] 0 true (some (toSemverRange none))
          (some (toSemverRange none)) "jetkvm-v2" with
        | (.error e, c1) => (.error (wrapS3Error e), c1, [])
        | (.ok r, c1) => (.ok r, c1, [])) ∧
    (Retrieve fixtureC2Env [] [] 0 ⟨"dev", true, none, none, "jetkvm-v2", false⟩).1 =
      (Retrieve fixtureC2Env [] [⟨"9.9.9", RelKind.app, 50, "u", "h"⟩] 0
        ⟨"dev", true, none, none, "jetkvm-v2", false⟩).1 :=
  claim_C2 fixtureC2Env [] [] [⟨"9.9.9", RelKind.app, 50, "u", "h"⟩] 0
    ⟨"dev", true, none, none, "jetkvm-v2", false⟩ (Or.inl rfl)

/-- C5: on the non-prerelease, non-pinned path the persisted table after
`Retrieve` is exactly the table after the two upserts seeded at
rolloutPercentage 10 for the resolved app and system versions, and the
upsert itself creates the row at the given defaults only when no
(version, type) row exists; when one exists it returns that row's fields
with the table unchanged — the empty update step writes nothing. -/
theorem claim_C5 (env : Env) (cache : Cache) (db : List DbRelease) (now : Nat)
    (q : RetrieveQuery) (r : Release) (c1 : Cache)
    (hpre : q.prerelease = false)
    (happ : toSemverRange q.appVersion = "*")
    (hsys : toSemverRange q.systemVersion = "*")
    (hrem : getReleaseFromS3 env cache now q.prerelease (some (toSemverRange q.appVersion))
        (some (toSemverRange q.systemVersion)) q.sku = (.ok r, c1)) :
    (Retrieve env cache db now q).2.2 =
      (upsertRelease (upsertRelease db
          ⟨r.appVersion, .app, 10, r.appUrl, r.appHash⟩).2
        ⟨r.systemVersion, .system, 10, r.systemUrl, r.systemHash⟩).2 ∧
    (∀ c : DbRelease, findRelease db c.version c.type = none →
      upsertRelease db c = (⟨c.version, c.url, c.rolloutPercentage, c.hash⟩, db ++ [c])) ∧
    (∀ c row : DbRelease, findRelease db c.version c.type = some row →
      upsertRelease db c = (⟨row.version, row.url, row.rolloutPercentage, row.hash⟩, db)) := by
  refine ⟨?_, ?_, ?_⟩
  · have hcond : (q.prerelease ||
        (toSemverRange q.appVersion != "*" || toSemverRange q.systemVersion != "*")) = false := by
      simp [hpre, happ, hsys]
    unfold Retrieve
    dsimp only
    rw [hrem, hcond]
    cases hF : q.forceUpdate
    · cases hda : getDefaultRelease (upsertRelease (upsertRelease db
          ⟨r.appVersion, .app, 10, r.appUrl, r.appHash⟩).2
          ⟨r.systemVersion, .system, 10, r.systemUrl, r.systemHash⟩).2 .app with
      | error e => simp [hda]
      | ok da =>
        cases hds : getDefaultRelease (upsertRelease (upsertRelease db
            ⟨r.appVersion, .app, 10, r.appUrl, r.appHash⟩).2
            ⟨r.systemVersion, .system, 10, r.systemUrl, r.systemHash⟩).2 .system with
        | error e => simp [hda, hds]
        | ok ds => simp [hda, hds]
    · simp
  · intro c hc
    unfold upsertRelease
    rw [hc]
  · intro c row hc
    unfold upsertRelease
    rw [hc]

theorem claim_C5_witness :
    (Retrieve fixtureC5Env [] [] 0 ⟨"dev1", false, none, none, "jetkvm-v2", true⟩).2.2 =
      (upsertRelease (upsertRelease []
          ⟨"1.0.0", .app, 10, "https://cdn.test.com/app/1.0.0/jetkvm_app", "ha"⟩).2
        ⟨"1.0.0", .system, 10, "https://cdn.test.com/system/1.0.0/system.tar", "hs"⟩).2 ∧
    (∀ c : DbRelease, findRelease [] c.version c.type = none →
      upsertRelease [] c = (⟨c.version, c.url, c.rolloutPercentage, c.hash⟩, [] ++ [c])) ∧
    (∀ c row : DbRelease, findRelease [] c.version c.type = some row →
      upsertRelease [] c = (⟨row.version, row.url, row.rolloutPercentage, row.hash⟩, [])) :=
  claim_C5 fixtureC5Env [] [] 0 ⟨"dev1", false, none, none, "jetkvm-v2", true⟩
    ⟨"1.0.0", "https://cdn.test.com/app/1.0.0/jetkvm_app", "ha", some 0, some "*",
     "1.0.0", "https://cdn.test.com/system/1.0.0/system.tar", "hs", some 0, some "*"⟩
    [("system-false-*-jetkvm-v2",
      ⟨"1.0.0", "https://cdn.test.com/system/1.0.0/system.tar", "hs", some 0, some "*"⟩),
     ("app-false-*-jetkvm-v2",
      ⟨"1.0.0", "https://cdn.test.com/app/1.0.0/jetkvm_app", "ha", some 0, some "*"⟩)]
    rfl rfl rfl (by rfl)

/-- When `getLatestVersion` succeeds on a cache miss, the returned version is
exactly the max-satisfying one over the valid listed versions. -/
theorem getLatestVersion_ok_shape (env : Env) (cache : Cache) (now : Nat) (k : RelKind)
    (incl : Bool) (rng : Option String) (sku : String) (md : ReleaseMetadata)
    (hmiss : cache.lookup (cacheKeyOf k incl (rng.getD "*") sku) = none)
    (h : (getLatestVersion env cache now k incl rng sku).1 = .ok md) :
    Semver.maxSatisfyingFn (validListedVersions env.s3 k) (rng.getD "*") incl =
      some md.version := by
  unfold getLatestVersion at h
  dsimp only at h
  rw [hmiss] at h
  by_cases hcp : (s3ListCommonPrefixes env.s3 (k.str ++ "/")).isEmpty = true
  · rw [if_pos hcp] at h
    exact Except.noConfusion h
  · rw [if_neg hcp] at h
    by_cases hvv : (validListedVersions env.s3 k).isEmpty = true
    · rw [if_pos hvv] at h
      exact Except.noConfusion h
    · rw [if_neg hvv] at h
      cases hms : Semver.maxSatisfyingFn (validListedVersions env.s3 k) (rng.getD "*") incl with
      | none =>
        rw [hms] at h
        exact Except.noConfusion h
      | some lv =>
        rw [hms] at h
        dsimp only at h
        cases hra : resolveArtifactPath env.s3 k lv sku none with
        | error e =>
          rw [hra] at h
          exact Except.noConfusion h
        | ok selectedPath =>
          rw [hra] at h
          dsimp only at h
          cases hga : s3GetObject env.s3 (selectedPath ++ ".sha256") with
          | none =>
            rw [hga] at h
            exact Except.noConfusion h
          | some body =>
            rw [hga] at h
            cases body with
            | none => exact Except.noConfusion h
            | some b =>
              have hmd := Except.ok.inj h
              rw [← hmd]

/-- C7: `getLatestVersion` silently drops non-semver folder names: with some
folders listed but none a valid semver, it throws the "No valid versions"
NotFound; with valid versions but none satisfying the range it throws the
"no version satisfies" NotFound; when it succeeds, the returned version is a
listed valid version satisfying the range that no other satisfying listed
version exceeds.  On the listing {1.0.0, 1.1.0, 2.0.0-beta.1, junk} with
range "*" it yields 1.1.0 without prereleases and 2.0.0-beta.1 with. -/
theorem claim_C7 (env : Env) (cache : Cache) (now : Nat) (k : RelKind)
    (incl : Bool) (rng : Option String) (sku : String)
    (hmiss : cache.lookup (cacheKeyOf k incl (rng.getD "*") sku) = none) :
    (s3ListCommonPrefixes env.s3 (k.str ++ "/") ≠ [] → validListedVersions env.s3 k = [] →
      (getLatestVersion env cache now k incl rng sku).1 =
        .error (.notFound ("No valid versions found under prefix " ++ k.str))) ∧
    (validListedVersions env.s3 k ≠ [] →
      Semver.maxSatisfyingFn (validListedVersions env.s3 k) (rng.getD "*") incl = none →
      (getLatestVersion env cache now k incl rng sku).1 =
        .error (.notFound
          ("No version found under prefix " ++ k.str ++ " that satisfies " ++ rng.getD "*"))) ∧
    (∀ md, (getLatestVersion env cache now k incl rng sku).1 = .ok md →
      md.version ∈ validListedVersions env.s3 k ∧
      Semver.satisfiesStr md.version (rng.getD "*") incl = true ∧
      (∀ v ∈ validListedVersions env.s3 k,
        Semver.satisfiesStr v (rng.getD "*") incl = true →
        Semver.cmpStr md.version v ≠ .lt)) ∧
    (getLatestVersion fixtureC7Env [] 0 .app false (some "*") DEFAULT_SKU).1 =
      .ok ⟨"1.1.0", "https://cdn.test.com/app/1.1.0/jetkvm_app", "h110", some 0, some "*"⟩ ∧
    (getLatestVersion fixtureC7Env [] 0 .app true (some "*") DEFAULT_SKU).1 =
      .ok ⟨"2.0.0-beta.1", "https://cdn.test.com/app/2.0.0-beta.1/jetkvm_app", "h200",
        some 0, some "*"⟩ := by
  refine ⟨?_, ?_, ?_, by rfl, by rfl⟩
  · intro hcp hvv
    have h1 : (s3ListCommonPrefixes env.s3 (k.str ++ "/")).isEmpty = false := by
      simpa [List.isEmpty_iff] using hcp
    simp [getLatestVersion, hmiss, h1, hvv]
  · intro hvv hmax
    have hcp : s3ListCommonPrefixes env.s3 (k.str ++ "/") ≠ [] := by
      intro hc0
      apply hvv
      unfold validListedVersions listedVersions
      rw [hc0]
      rfl
    have h1 : (s3ListCommonPrefixes env.s3 (k.str ++ "/")).isEmpty = false := by
      simpa [List.isEmpty_iff] using hcp
    have h2 : (validListedVersions env.s3 k).isEmpty = false := by
      simpa [List.isEmpty_iff] using hvv
    simp [getLatestVersion, hmiss, h1, h2, hmax]
  · intro md hok
    exact maxSatisfyingFn_spec
      (getLatestVersion_ok_shape env cache now k incl rng sku md hmiss hok)

theorem claim_C7_witness :
    (getLatestVersion fixtureC7Env [] 0 .app false (some "*") DEFAULT_SKU).1 =
      .ok ⟨"1.1.0", "https://cdn.test.com/app/1.1.0/jetkvm_app", "h110", some 0, some "*"⟩ ∧
    (getLatestVersion fixtureC7Env [] 0 .app true (some "*") DEFAULT_SKU).1 =
      .ok ⟨"2.0.0-beta.1", "https://cdn.test.com/app/2.0.0-beta.1/jetkvm_app", "h200",
        some 0, some "*"⟩ :=
  ⟨(claim_C7 fixtureC7Env [] 0 .app false (some "*") DEFAULT_SKU rfl).2.2.2.1,
   (claim_C7 fixtureC7Env [] 0 .app false (some "*") DEFAULT_SKU rfl).2.2.2.2⟩

/-- C8: `verifyHash` compares the SHA-256 hex digest of the artifact bytes
against the trimmed digest text; on a mismatch it throws an
InternalServerError carrying the supplied (non-empty) reason, and returns
false instead when no reason was supplied.  Consequently whenever the app
redirect callback produces a redirect target, the artifact it points at has
a digest file matching the artifact bytes. -/
theorem claim_C8 (fileBytes : List Nat) (hashBody reason : String)
    (env : Env) (q : LatestQuery) (u : String)
    (hdiff : jsTrim (streamToString hashBody) ≠ sha256Hex fileBytes)
    (hreason : reason ≠ "")
    (hok : RetrieveLatestAppCore env q = .ok u) :
    verifyHash fileBytes hashBody (some reason) = .error (.internal reason) ∧
    verifyHash fileBytes hashBody none = .ok false ∧
    ∃ path fileBody hashText,
      s3GetObject env.s3 path = some (some fileBody) ∧
      s3GetObject env.s3 (path ++ ".sha256") = some (some hashText) ∧
      jsTrim (streamToString hashText) = sha256Hex (strBytes fileBody) ∧
      u = env.baseUrl ++ "/" ++ path := by
  have hbeq : (jsTrim (streamToString hashBody) == sha256Hex fileBytes) = false := by
    simpa using hdiff
  have hrb : (reason == "") = false := by simpa using hreason
  refine ⟨by simp [verifyHash, hbeq, hrb], by simp [verifyHash, hbeq], ?_⟩
  unfold RetrieveLatestAppCore at hok
  dsimp only at hok
  by_cases hcp : (s3ListCommonPrefixes env.s3 "app/").isEmpty = true
  · rw [if_pos hcp] at hok
    exact Except.noConfusion hok
  · rw [if_neg hcp] at hok
    cases hms : Semver.maxSatisfyingFn
        (((s3ListCommonPrefixes env.s3 "app/").map
          (fun cp => (jsSplit cp '/').getD 1 "")).filter (fun v => Semver.validB v))
        "*" q.prerelease with
    | none =>
      rw [hms] at hok
      exact Except.noConfusion hok
    | some lv =>
      rw [hms] at hok
      dsimp only at hok
      cases hra : resolveArtifactPath env.s3 .app lv q.sku none with
      | error e =>
        rw [hra] at hok
        exact Except.noConfusion hok
      | ok path =>
        rw [hra] at hok
        dsimp only at hok
        cases hga : s3GetObject env.s3 path with
        | none =>
          rw [hga] at hok
          exact Except.noConfusion hok
        | some appBody =>
          rw [hga] at hok
          dsimp only at hok
          cases hgh : s3GetObject env.s3 (path ++ ".sha256") with
          | none =>
            rw [hgh] at hok
            exact Except.noConfusion hok
          | some hashB =>
            rw [hgh] at hok
            dsimp only at hok
            cases appBody with
            | none => cases hashB <;> exact Except.noConfusion hok
            | some fb =>
              cases hashB with
              | none => exact Except.noConfusion hok
              | some ht =>
                dsimp only at hok
                cases hv : verifyHash (strBytes fb) ht (some "app hash does not match") with
                | error e =>
                  rw [hv] at hok
                  exact Except.noConfusion hok
                | ok b =>
                  rw [hv] at hok
                  have hu := Except.ok.inj hok
                  by_cases hbq : (jsTrim (streamToString ht) == sha256Hex (strBytes fb)) = true
                  · exact ⟨path, fb, ht, hga, hgh, by simpa using hbq, hu.symm⟩
                  · exfalso
                    have hbf : (jsTrim (streamToString ht) == sha256Hex (strBytes fb)) = false := by
                      simpa using hbq
                    have hverr : verifyHash (strBytes fb) ht (some "app hash does not match") =
                        .error (.internal "app hash does not match") := by
                      simp [verifyHash, hbf]
                    rw [hverr] at hv
                    exact Except.noConfusion hv

theorem claim_C8_witness :
    verifyHash [] "deadbeef" (some "mismatch") = .error (.internal "mismatch") ∧
    verifyHash [] "deadbeef" none = .ok false ∧
    ∃ path fileBody hashText,
      s3GetObject fixtureC8Env.s3 path = some (some fileBody) ∧
      s3GetObject fixtureC8Env.s3 (path ++ ".sha256") = some (some hashText) ∧
      jsTrim (streamToString hashText) = sha256Hex (strBytes fileBody) ∧
      "https://cdn.test.com/app/1.0.0/jetkvm_app" =
        fixtureC8Env.baseUrl ++ "/" ++ path :=
  claim_C8 [] "deadbeef" "mismatch" fixtureC8Env ⟨false, "jetkvm-v2"⟩
    "https://cdn.test.com/app/1.0.0/jetkvm_app" (by decide) (by decide) (by rfl)
